import Mathlib

/-!
Shallow embedding of the PANOC-ALM inner solvers (PANOC and PGA) from
`src/include/panoc-alm/inner/panoc.hpp` and `src/include/panoc-alm/inner/pga.hpp`.

Modelling conventions:
- `real_t` (IEEE double) is modelled by `Flt`: either a finite rational value
  `Flt.fin q` or the non-finite marker `Flt.nonfin` (standing for plus/minus
  infinity and NaN alike).  Arithmetic propagates non-finiteness, division by
  zero is non-finite, and every comparison involving a non-finite value is
  false, mirroring the IEEE comparison semantics the C++ code relies on
  (`std::isfinite` guards every place where the distinction matters).
- Vectors (`Eigen::VectorXd`) are lists of `Flt`.
- The problem callbacks (objective, gradient, projection, constraint error)
  are opaque oracles collected in a `Problem` record, mirroring the fact that
  the spec declares them external collaborators consumed through
  `detail::calc_*` wrappers.
- Unbounded `while` loops are embedded with explicit fuel, returning `none`
  when the fuel runs out; all theorems about loop exits are conditioned on a
  `some` result.
-/

namespace PanocAlm

/-- Model of the C++ `real_t`: a finite rational or a non-finite marker that
conflates the IEEE infinities and NaN. -/
inductive Flt where
  | fin (q : ℚ) : Flt
  | nonfin : Flt
deriving DecidableEq, Repr

namespace Flt

/-- Addition, propagating non-finite operands. -/
def add : Flt → Flt → Flt
  | fin a, fin b => fin (a + b)
  | _, _ => nonfin

/-- Subtraction, propagating non-finite operands. -/
def sub : Flt → Flt → Flt
  | fin a, fin b => fin (a - b)
  | _, _ => nonfin

/-- Multiplication, propagating non-finite operands. -/
def mul : Flt → Flt → Flt
  | fin a, fin b => fin (a * b)
  | _, _ => nonfin

/-- Division; division by zero and non-finite operands produce `nonfin`. -/
def div : Flt → Flt → Flt
  | fin a, fin b => if b = 0 then nonfin else fin (a / b)
  | _, _ => nonfin

/-- Negation. -/
def neg : Flt → Flt
  | fin a => fin (-a)
  | nonfin => nonfin

/-- Absolute value (`std::abs`). -/
def fabs : Flt → Flt
  | fin a => fin (if a < 0 then -a else a)
  | nonfin => nonfin

/-- Strict less-than; false whenever an operand is non-finite, as for IEEE
comparisons against NaN. -/
def blt : Flt → Flt → Bool
  | fin a, fin b => decide (a < b)
  | _, _ => false

/-- Non-strict less-or-equal; false whenever an operand is non-finite. -/
def ble : Flt → Flt → Bool
  | fin a, fin b => decide (a ≤ b)
  | _, _ => false

/-- Equality test; false whenever an operand is non-finite (NaN-like). -/
def beq : Flt → Flt → Bool
  | fin a, fin b => decide (a = b)
  | _, _ => false

/-- The `std::isfinite` test. -/
def isFinite : Flt → Bool
  | fin _ => true
  | nonfin => false

/-- Componentwise maximum used by `cwiseMax`. -/
def fmax : Flt → Flt → Flt
  | fin a, fin b => fin (max a b)
  | _, _ => nonfin

instance : Add Flt := ⟨add⟩
instance : Sub Flt := ⟨sub⟩
instance : Mul Flt := ⟨mul⟩
instance : Div Flt := ⟨div⟩
instance : Neg Flt := ⟨neg⟩
instance : Inhabited Flt := ⟨nonfin⟩

end Flt

/-- Model of `Eigen::VectorXd`: a list of scalars. -/
abbrev Vec := List Flt

/-- Componentwise vector addition. -/
def vadd (v w : Vec) : Vec := List.zipWith Flt.add v w

/-- Componentwise vector subtraction. -/
def vsub (v w : Vec) : Vec := List.zipWith Flt.sub v w

/-- Scalar multiplication of a vector. -/
def smul (a : Flt) (v : Vec) : Vec := v.map (fun b => a * b)

/-- Dot product (`Eigen .dot`).  A non-finite component makes the sum
non-finite, matching IEEE accumulation. -/
def dot (v w : Vec) : Flt := (List.zipWith Flt.mul v w).foldl Flt.add (Flt.fin 0)

/-- Squared Euclidean norm (`Eigen .squaredNorm`). -/
def squaredNorm (v : Vec) : Flt := dot v v

/-- Componentwise absolute value (`.cwiseAbs()`). -/
def cwiseAbs (v : Vec) : Vec := v.map Flt.fabs

/-- Componentwise maximum with a scalar (`.cwiseMax(d)`). -/
def cwiseMaxS (v : Vec) (d : Flt) : Vec := v.map (fun a => Flt.fmax a d)

/-- The `allFinite()` test of Eigen. -/
def allFinite (v : Vec) : Bool := v.all Flt.isFinite

/-- Exact componentwise equality of two vectors (`operator==` on Eigen
vectors), false on any NaN-like component. -/
def veq (v w : Vec) : Bool :=
  decide (v.length = w.length) && (List.zipWith Flt.beq v w).all id

/-- The `SolverStatus` enumeration of `util/solverstatus.hpp`. -/
inductive SolverStatus where
  | Unknown | Converged | MaxTime | MaxIter | NotFinite | NoProgress | Interrupted
deriving DecidableEq, Repr, Inhabited

/-- The status selection of the exit blocks of both solvers
(`panoc.hpp:238`, `pga.hpp:226`): a chain of conditionals over the exit
flags, with `Interrupted` as the final fallback. -/
def exitStatus (conv oot oit nf mnp : Bool) : SolverStatus :=
  if conv then .Converged
  else if oot then .MaxTime
  else if oit then .MaxIter
  else if nf then .NotFinite
  else if mnp then .NoProgress
  else .Interrupted

/-- First status in a priority list whose flag is raised, else the default;
used to state priority-order claims about `exitStatus`. -/
def firstRaised : List (Bool × SolverStatus) → SolverStatus → SolverStatus
  | [], d => d
  | (b, st) :: rest, d => if b then st else firstRaised rest d

/-- The problem oracles the inner solvers consume.  These model the
`detail::calc_*` wrappers of `panoc-helpers.hpp` (not under `src/`), which
the spec declares external collaborators (ProblemAPI, section 4.1):
`psiYhat` is `calc_ψ_ŷ` (returns ψ(x) and writes ŷ), `psiGrad` is
`calc_ψ_grad_ψ`, `grad` is `calc_grad_ψ`, `gradFromYhat` is
`calc_grad_ψ_from_ŷ`, `proj` is projection onto C, and `errz` is
`calc_err_z` giving g(x̂) − ẑ. -/
structure Problem where
  n : Nat
  m : Nat
  psiYhat : Vec → Flt × Vec
  psiGrad : Vec → Flt × Vec
  grad : Vec → Vec
  gradFromYhat : Vec → Vec → Vec
  proj : Vec → Vec
  errz : Vec → Vec

/-- Modelled from the spec: `detail::calc_x̂` (panoc-helpers.hpp is not under
`src/`).  Spec 4.1: `prox_step(γ, x, ∇ψ, out_x̂, out_p)` computes
`x̂ = proj_C(x − γ∇ψ)` and `p = x̂ − x`. -/
def calcXhat (P : Problem) (γ : Flt) (x g : Vec) : Vec × Vec :=
  let xh := P.proj (vsub x (smul γ g))
  (xh, vsub xh x)

/-- Modelled from the spec: `detail::calc_error_stop_crit`
(panoc-helpers.hpp is not under `src/`).  Spec 4.3: the stop criterion is
`ε̂ = max over components of |(1/γ)·pᵢ − (∇ψ(x̂)ᵢ − ∇ψ(x)ᵢ)|`. -/
def stopCrit (p : Vec) (γ : Flt) (gh g : Vec) : Flt :=
  (vsub (p.map (fun a => a / γ)) (vsub gh g)).foldl
    (fun acc a => Flt.fmax acc (Flt.fabs a)) (Flt.fin 0)

/-- Machine epsilon of IEEE double (`std::numeric_limits<double>::epsilon()`). -/
def machEps : ℚ := 1 / 2 ^ 52

/-- The finite-difference perturbation `h` of both solvers:
`(x * ε).cwiseAbs().cwiseMax(δ)` (panoc.hpp:130, pga.hpp:140). -/
def hVec (x : Vec) (e d : ℚ) : Vec :=
  cwiseMaxS (cwiseAbs (smul (Flt.fin e) x)) (Flt.fin d)

/-- The raw initial Lipschitz estimate `‖∇ψ(x₀+h) − ∇ψ(x₀)‖ / ‖h‖`
(panoc.hpp:140, pga.hpp:150).  `nrm` is the Euclidean-norm oracle (Eigen's
`.norm()`, an external linear-algebra primitive). -/
def estimateL (nrm : Vec → Flt) (gxh gx h : Vec) : Flt :=
  nrm (vsub gxh gx) / nrm h

/-- The clamp-or-fail branch on the initial Lipschitz estimate
(panoc.hpp:141-146, pga.hpp:151-156): clamp values below machine epsilon up
to machine epsilon; fail (`none`, leading to a NotFinite return) when the
estimate is not finite. -/
def clampL (L : Flt) : Option Flt :=
  if Flt.blt L (Flt.fin machEps) then some (Flt.fin machEps)
  else if L.isFinite then some L else none

/-- What a solver invocation returns, together with the final values of the
in-out arguments `x`, `y`, `err_z` and ghost fields exposing the internal
state at the exit point (proximal image, auxiliary dual, step size and
Lipschitz estimate) for stating invariants. -/
structure SolveResult where
  iters : Nat
  epsv : Flt
  status : SolverStatus
  lsFails : Nat
  lbFails : Nat
  lbRej : Nat
  x : Vec
  y : Vec
  ez : Vec
  xhEx : Vec
  yhEx : Vec
  gamEx : Flt
  LEx : Flt
deriving DecidableEq, Repr, Inhabited

/-! ## PGA (`pga.hpp`) -/

/-- The `PGAParams` of `pga.hpp` (print_interval only affects printing and
is omitted; max_time is modelled by the out-of-time oracle). -/
structure PGAParams where
  Le : ℚ
  Ld : ℚ
  Lgf : ℚ
  maxIter : Nat

/-- The mutable scalar/vector state of the PGA quadratic-upper-bound loop
(pga.hpp:182-193). -/
structure PQub where
  L : Flt
  gam : Flt
  xh : Vec
  p : Vec
  psih : Flt
  yh : Vec
  gTp : Flt
  nsp : Flt
deriving Repr, Inhabited

/-- The PGA quadratic-upper-bound violation test (pga.hpp:182):
`ψ(x̂ₖ) > ψₖ + margin + ∇ψₖᵀpₖ + 0.5·Lₖ·‖pₖ‖²` with `margin = 0`. -/
def pgaQubCond (psik : Flt) (q : PQub) : Bool :=
  Flt.blt (psik + Flt.fin 0 + q.gTp + Flt.fin (1/2) * q.L * q.nsp) q.psih

/-- One pass of the PGA quadratic-upper-bound loop body (pga.hpp:183-192). -/
def pgaQubBody (P : Problem) (xk gk : Vec) (q : PQub) : PQub :=
  let L := Flt.fin 2 * q.L
  let gam := q.gam / Flt.fin 2
  let xp := calcXhat P gam xk gk
  let py := P.psiYhat xp.1
  { L := L, gam := gam, xh := xp.1, p := xp.2, psih := py.1, yh := py.2,
    gTp := dot gk xp.2, nsp := squaredNorm xp.2 }

/-- The PGA quadratic-upper-bound loop (pga.hpp:182-193), with fuel. -/
def pgaQubLoop (P : Problem) (xk gk : Vec) (psik : Flt) :
    Nat → PQub → Option PQub
  | 0, q => if pgaQubCond psik q then none else some q
  | fuel + 1, q =>
    if pgaQubCond psik q then pgaQubLoop P xk gk psik fuel (pgaQubBody P xk gk q)
    else some q

/-- The PGA no-progress exit trigger (pga.hpp:212): `no_progress > 1`. -/
def pgaNoProgExit (np : Nat) : Bool := decide (np > 1)

/-- The PGA no-progress counter update (pga.hpp:235-238): every iteration,
increment on exact equality of `xₖ` and `x̂ₖ`, reset to zero otherwise. -/
def pgaNoProg (np : Nat) (xk xhk : Vec) : Nat :=
  if veq xk xhk then np + 1 else 0

/-- Cross-iteration state of the PGA main loop. -/
structure PSt where
  xk : Vec
  gk : Vec
  psik : Flt
  L : Flt
  gam : Flt
  np : Nat
deriving Repr, Inhabited

/-- The caller-supplied context of one PGA invocation: problem, parameters,
norm oracle, wall-clock and stop-signal oracles (per iteration index),
tolerance and the incoming values of the in-out arguments. -/
structure PCtx where
  P : Problem
  pg : PGAParams
  nrm : Vec → Flt
  oot : Nat → Bool
  stopSig : Nat → Bool
  tol : Flt
  xin : Vec
  yin : Vec
  ezin : Vec

/-- One iteration of the PGA main loop (pga.hpp:164-243).  Returns the
solve result on exit, or the advanced state. -/
def pgaIter (C : PCtx) (fuel k : Nat) (s : PSt) : Option (SolveResult ⊕ PSt) :=
  let xp := calcXhat C.P s.gam s.xk s.gk
  let py := C.P.psiYhat xp.1
  let q0 : PQub := { L := s.L, gam := s.gam, xh := xp.1, p := xp.2,
                     psih := py.1, yh := py.2,
                     gTp := dot s.gk xp.2, nsp := squaredNorm xp.2 }
  (pgaQubLoop C.P s.xk s.gk s.psik fuel q0).bind (fun q =>
    let gh := C.P.gradFromYhat q.xh q.yh
    let ek := stopCrit q.p q.gam gh s.gk
    let oot := C.oot k
    let oit := k == C.pg.maxIter
    let intr := C.stopSig k
    let nf := !ek.isFinite
    let conv := Flt.ble ek C.tol
    let mnp := pgaNoProgExit s.np
    if conv || oit || oot || nf || intr || mnp then
      some (Sum.inl
        { iters := k, epsv := ek,
          status := exitStatus conv oot oit nf mnp,
          lsFails := 0, lbFails := 0, lbRej := 0,
          x := q.xh, y := q.yh, ez := C.P.errz q.xh,
          xhEx := q.xh, yhEx := q.yh, gamEx := q.gam, LEx := q.L })
    else
      some (Sum.inr
        { xk := q.xh, gk := gh, psik := q.psih, L := q.L, gam := q.gam,
          np := pgaNoProg s.np s.xk q.xh }))

/-- The PGA main loop (pga.hpp:164-243), recursing on remaining iterations. -/
def pgaRun (C : PCtx) (fuel : Nat) : Nat → Nat → PSt → Option SolveResult
  | _, 0, _ => none
  | k, iters + 1, s =>
    match pgaIter C fuel k s with
    | none => none
    | some (Sum.inl r) => some r
    | some (Sum.inr s') => pgaRun C fuel (k + 1) iters s'

/-- The initial Lipschitz estimate of PGA (pga.hpp:139-150), computed after
perturbing the caller's `x` in place by `h`. -/
def pgaInitL (C : PCtx) : Flt :=
  let h := hVec C.xin C.pg.Le C.pg.Ld
  estimateL C.nrm (C.P.grad (vadd C.xin h)) (C.P.psiGrad C.xin).2 h

/-- The result of the early NotFinite return of PGA (pga.hpp:153-155): only
the status field of the default-initialized Stats is set, nothing is
written to `y` or `err_z` — but the caller's `x` was already mutated to
`x₀ + h` by pga.hpp:141 and is not restored. -/
def pgaNFRes (C : PCtx) : SolveResult :=
  { iters := 0, epsv := Flt.nonfin, status := .NotFinite,
    lsFails := 0, lbFails := 0, lbRej := 0,
    x := vadd C.xin (hVec C.xin C.pg.Le C.pg.Ld), y := C.yin, ez := C.ezin,
    xhEx := [], yhEx := [], gamEx := Flt.nonfin, LEx := Flt.nonfin }

/-- The state of PGA at entry to iteration 0, given the clamped initial
Lipschitz estimate (pga.hpp:147-160). -/
def pgaInitSt (C : PCtx) (L0 : Flt) : PSt :=
  let pg0 := C.P.psiGrad C.xin
  { xk := C.xin, gk := pg0.2, psik := pg0.1, L := L0,
    gam := Flt.fin C.pg.Lgf / L0, np := 0 }

/-- The full PGA solve (`PGA::operator()`, pga.hpp:78-245).  Note that
pga.hpp:141 mutates the caller's `x` to `x₀ + h` before the main loop; the
early NotFinite return therefore leaves `x` perturbed. -/
def pgaSolve (C : PCtx) (fuel : Nat) : Option SolveResult :=
  match clampL (pgaInitL C) with
  | none => some (pgaNFRes C)
  | some L0 => pgaRun C fuel 0 (C.pg.maxIter + 1) (pgaInitSt C L0)

/-! ## PANOC (`panoc.hpp`) -/

/-- The PANOC parameters (`PANOCParams` from `decl/panoc.hpp`, consumed in
`panoc.hpp`): Lipschitz finite-difference parameters, iteration budget,
line-search floor, quadratic-upper-bound noise threshold, the two boolean
variants, Anderson memory and L-BFGS memory.  `max_time` is modelled by the
out-of-time oracle and `print_interval` only affects printing. -/
structure Params where
  Le : ℚ
  Ld : ℚ
  Lgf : ℚ
  maxIter : Nat
  tauMin : ℚ
  qubT : ℚ
  updLip : Bool
  altLs : Bool
  aaMem : Nat
  mem : Nat

/-- The polymorphic direction provider contract
(`PANOCDirection<DirectionProvider>`, spec 4.4), with opaque state `δ`. -/
structure DirOps (δ : Type) where
  resize : δ → Nat → Nat → δ
  init : δ → Vec → Vec → Vec → Vec → δ
  applyDir : δ → Vec → Vec → Vec → Vec
  update : δ → Vec → Vec → Vec → Vec → Vec → Flt → Bool × δ
  changedGamma : δ → Flt → Flt → δ
  reset : δ → δ

/-- Modelled from the spec: `LimitedMemoryQR` (not under `src/`).  Only the
interface the PANOC loop consumes is modelled: a column capacity, the
current number of columns, the ring tail index, and the cumulative scalar
applied to R by `scale_R`. -/
structure LimitedMemoryQR where
  cap : Nat
  cols : Nat
  tail : Nat
  rscale : Flt
deriving Repr, Inhabited

/-- Modelled from the spec: `scale_R(α)` multiplies the R factor by α. -/
def qrScaleR (q : LimitedMemoryQR) (a : Flt) : LimitedMemoryQR :=
  { q with rscale := a * q.rscale }

/-- Modelled from the spec: `reset()` flushes all columns and indices. -/
def qrReset (q : LimitedMemoryQR) : LimitedMemoryQR :=
  { q with cols := 0, tail := 0, rscale := Flt.fin 1 }

/-- The Anderson-acceleration working set allocated in panoc.hpp:65-79:
history matrix Gₐₐ (as a list of columns), the QR factorization, and the
working vectors. -/
structure AAState where
  rp : Vec
  r : Vec
  ya : Vec
  xa : Vec
  ga : Vec
  gls : Vec
  yha : Vec
  G : List Vec
  qr : LimitedMemoryQR
deriving Repr, Inhabited

/-- Column `i` of Gₐₐ. -/
def getCol (G : List Vec) (i : Nat) : Vec := G.getD i []

/-- Overwrite column `i` of Gₐₐ. -/
def setCol (G : List Vec) (i : Nat) (v : Vec) : List Vec := G.set i v

/-- The effective Anderson memory depth chosen by the allocation block
(panoc.hpp:69): `min(params.anderson_acceleration, problem.n)`. -/
def aaDepth (aaMem n : Nat) : Nat := min aaMem n

/-- The Anderson allocations of panoc.hpp:68-79: `γₐₐ_LS` has `min(mₐₐ, n)`
rows, `Gₐₐ` has `min(mₐₐ, n)` columns of length n, and the QR is sized
`n × min(mₐₐ, n)`.  Unwritten memory is modelled as non-finite. -/
def initAA (aaMem n m : Nat) : AAState :=
  if aaMem = 0 then
    { rp := [], r := [], ya := [], xa := [], ga := [], gls := [], yha := [],
      G := [], qr := { cap := 0, cols := 0, tail := 0, rscale := Flt.fin 1 } }
  else
    let d := aaDepth aaMem n
    { rp := List.replicate n Flt.nonfin, r := List.replicate n Flt.nonfin,
      ya := List.replicate n Flt.nonfin, xa := List.replicate n Flt.nonfin,
      ga := List.replicate n Flt.nonfin,
      gls := List.replicate d Flt.nonfin,
      yha := List.replicate m Flt.nonfin,
      G := List.replicate d (List.replicate n Flt.nonfin),
      qr := { cap := d, cols := 0, tail := 0, rscale := Flt.fin 1 } }

/-- The `anderson_changed_γ` helper (panoc.hpp:116-125): when Anderson is
enabled, scale R and the stored residual `rₐₐₖ₋₁` by `γ_new/γ_old`. -/
def aaChangedGamma (aaOn : Bool) (aa : AAState) (gNew gOld : Flt) : AAState :=
  if aaOn then
    { aa with qr := qrScaleR aa.qr (gNew / gOld),
              rp := smul (gNew / gOld) aa.rp }
  else aa

/-- The PANOC quadratic-upper-bound violation test (panoc.hpp:174 and
panoc.hpp:343): `ψ(x̂) − ψ > ∇ψᵀp + 0.5·L·‖p‖²`. -/
def qubViol (psi psih gTp L nsp : Flt) : Bool :=
  Flt.blt (gTp + Flt.fin (1/2) * L * nsp) (psih - psi)

/-- The ψ-relative noise guard of the PANOC quadratic-upper-bound loop
(panoc.hpp:175 and panoc.hpp:345): `|∇ψᵀp / ψ| > θ_qub`. -/
def qubGuard (th : ℚ) (psi gTp : Flt) : Bool :=
  Flt.blt (Flt.fin th) (Flt.fabs (gTp / psi))

/-- The mutable state of the PANOC quadratic-upper-bound loop, shared by the
pre-loop instance (panoc.hpp:174-189, over the k-variables) and the
in-line-search instance (panoc.hpp:343-358, over the (k+1)-variables). -/
structure QubSt where
  L : Flt
  sig : Flt
  gam : Flt
  xh : Vec
  p : Vec
  gTp : Flt
  nsp : Flt
  psih : Flt
  yh : Vec
deriving Repr, Inhabited

/-- One body pass of the PANOC quadratic-upper-bound loop (panoc.hpp:177-188
and identically panoc.hpp:347-357): double L, halve σ and γ, recompute the
proximal step, the inner products and the objective at the proximal
image. -/
def qubBody (P : Problem) (x g : Vec) (q : QubSt) : QubSt :=
  let L := Flt.fin 2 * q.L
  let sig := q.sig / Flt.fin 2
  let gam := q.gam / Flt.fin 2
  let xp := calcXhat P gam x g
  let py := P.psiYhat xp.1
  { L := L, sig := sig, gam := gam, xh := xp.1, p := xp.2,
    gTp := dot g xp.2, nsp := squaredNorm xp.2, psih := py.1, yh := py.2 }

/-- The PANOC quadratic-upper-bound loop, with fuel: loop while the
quadratic upper bound is violated and the noise guard has not fired. -/
def qubLoop (P : Problem) (th : ℚ) (x g : Vec) (psi : Flt) :
    Nat → QubSt → Option QubSt
  | 0, q =>
    if qubViol psi q.psih q.gTp q.L q.nsp && qubGuard th psi q.gTp then none
    else some q
  | fuel + 1, q =>
    if qubViol psi q.psih q.gTp q.L q.nsp && qubGuard th psi q.gTp then
      qubLoop P th x g psi fuel (qubBody P x g q)
    else some q

/-- The initial line-search parameter (panoc.hpp:299-312): τ starts at 1 and
is forced to 0 at k = 0 or when the quasi-Newton step is not finite. -/
def initTau (k : Nat) (q : Vec) : ℚ :=
  if k == 0 then 0 else if !allFinite q then 0 else 1

/-- The PANOC no-progress exit trigger (panoc.hpp:222):
`no_progress > lbfgs_mem`. -/
def panocNoProgExit (mem np : Nat) : Bool := decide (np > mem)

/-- The PANOC no-progress counter update (panoc.hpp:386-387): only on
iterations with `no_progress > 0` or `k mod lbfgs_mem == 0`, increment on
exact equality of `xₖ` and `xₖ₊₁`, reset to zero otherwise. -/
def panocNoProg (mem k np : Nat) (xk xk1 : Vec) : Nat :=
  if np > 0 || k % mem == 0 then (if veq xk xk1 then np + 1 else 0) else np

/-- The Anderson-acceleration block for iterations k ≥ 1
(panoc.hpp:260-295).  `minUpd` is the `minimize_update_anderson` oracle
(anderson-helpers.hpp, not under `src/`), taking the QR, Gₐₐ, `rₐₐₖ`,
`rₐₐₖ₋₁`, `gₐₐₖ` and producing the updated QR and Gₐₐ, the least-squares
coefficients `γₐₐ_LS` and the extrapolated point `yₐₐₖ`.  Returns the
acceptance flag, the updated Anderson state and the possibly replaced
`x̂ₖ`, `pₖ`, `ψx̂ₖ`, `∇ψ̂ₖ`. -/
def andersonStep (P : Problem)
    (minUpd : LimitedMemoryQR → List Vec → Vec → Vec → Vec →
      LimitedMemoryQR × List Vec × Vec × Vec)
    (gam : Flt) (xk gk : Vec) (psihk : Flt) (xhk pk ghk : Vec)
    (aa : AAState) : Bool × AAState × Vec × Vec × Flt × Vec :=
  let ga := vsub xk (smul gam gk)
  let raa := vsub ga aa.ya
  let u := minUpd aa.qr aa.G raa aa.rp ga
  let qr1 := u.1
  let G1 := u.2.1
  let gls := u.2.2.1
  let ya1 := u.2.2.2
  let active := gls.take qr1.cols
  let qrG :=
    if !allFinite active then
      let tl := qr1.tail
      let G2 := if tl ≠ 0 then setCol G1 0 (getCol G1 tl) else G1
      (qrReset qr1, G2)
    else (qr1, G1)
  let xa := P.proj ya1
  let py := P.psiYhat xa
  let accepted := Flt.blt py.1 psihk
  if accepted then
    let xh1 := xa
    let p1 := vsub xh1 xk
    let gh1 := P.gradFromYhat xh1 py.2
    (true,
     { rp := aa.rp, r := raa, ya := ya1, xa := xhk, ga := ga, gls := gls,
       yha := py.2, G := qrG.2, qr := qrG.1 },
     xh1, p1, py.1, gh1)
  else
    (false,
     { rp := aa.rp, r := raa, ya := ya1, xa := xa, ga := ga, gls := gls,
       yha := py.2, G := qrG.2, qr := qrG.1 },
     xhk, pk, psihk, ghk)

/-- The caller-supplied context of one PANOC invocation. -/
structure Ctx (δ : Type) where
  P : Problem
  pr : Params
  D : DirOps δ
  d0 : δ
  minUpd : LimitedMemoryQR → List Vec → Vec → Vec → Vec →
    LimitedMemoryQR × List Vec × Vec × Vec
  nrm : Vec → Flt
  oot : Nat → Bool
  stopSig : Nat → Bool
  tol : Flt
  aov : Bool
  xin : Vec
  yin : Vec
  ezin : Vec

/-- Cross-iteration state of the PANOC main loop (the variables of
panoc.hpp:49-164 that survive the advance step). -/
structure St (δ : Type) where
  xk : Vec
  xhk : Vec
  yhk : Vec
  pk : Vec
  qk : Vec
  gk : Vec
  ghk : Vec
  L : Flt
  sig : Flt
  gam : Flt
  psik : Flt
  psihk : Flt
  phik : Flt
  gTp : Flt
  nsp : Flt
  noProg : Nat
  lsFails : Nat
  lbFails : Nat
  lbRej : Nat
  dir : δ
  aa : AAState

/-- The mutable state of the PANOC line-search loop (panoc.hpp:298-374):
the (k+1)-variables, τ, the line-search condition value, and the direction
provider and Anderson state (mutated by the in-loop changed-γ
notifications). -/
structure LsSt (δ : Type) where
  tau : ℚ
  L1 : Flt
  sig1 : Flt
  gam1 : Flt
  x1 : Vec
  psi1 : Flt
  g1 : Vec
  xh1 : Vec
  p1 : Vec
  psih1 : Flt
  yh1 : Vec
  gTp1 : Flt
  nsp1 : Flt
  phi1 : Flt
  cond : Flt
  dir : δ
  aa : AAState

/-- The candidate next iterate of one line-search pass (panoc.hpp:320-329):
the pure proximal step `(x̂ₖ, ψx̂ₖ, ∇ψ̂ₖ)` when `τ/2 < τ_min` (line search
failed), else the interpolated step `xₖ + (1−τ)pₖ + τqₖ` with ψ and ∇ψ
evaluated there. -/
def lsCandidate (P : Problem) (pr : Params) (xk pk qk xhk ghk : Vec)
    (psihk : Flt) (tau : ℚ) : Vec × Flt × Vec :=
  if tau / 2 < pr.tauMin then (xhk, psihk, ghk)
  else
    let x1 := vadd (vadd xk (smul (Flt.fin (1 - tau)) pk))
                   (smul (Flt.fin tau) qk)
    let pg := P.psiGrad x1
    (x1, pg.1, pg.2)

/-- One pass of the PANOC line-search loop body (panoc.hpp:315-373): reset
L, σ, γ to the iteration values, pick the candidate iterate, take the
proximal step there, optionally re-adapt the Lipschitz estimate, compute
the forward-backward envelope, halve τ and evaluate the line-search
condition. -/
def lsPass {δ : Type} (P : Problem) (pr : Params) (D : DirOps δ)
    (xk pk qk xhk ghk : Vec) (psihk phik snp gamk Lk sigk : Flt)
    (fuel : Nat) (l : LsSt δ) : Option (LsSt δ) :=
  let cand := lsCandidate P pr xk pk qk xhk ghk psihk l.tau
  let x1 := cand.1
  let psi1 := cand.2.1
  let g1 := cand.2.2
  let xp := calcXhat P gamk x1 g1
  let py := P.psiYhat xp.1
  let q0 : QubSt := { L := Lk, sig := sigk, gam := gamk, xh := xp.1,
                      p := xp.2, gTp := dot g1 xp.2,
                      nsp := squaredNorm xp.2, psih := py.1, yh := py.2 }
  let nspk := q0.nsp
  let step : Option (QubSt × δ × AAState) :=
    if pr.updLip then
      match qubLoop P pr.qubT x1 g1 psi1 fuel q0 with
      | none => none
      | some q =>
        if !Flt.beq q.gam gamk then
          some (q, D.changedGamma l.dir q.gam gamk,
                aaChangedGamma (pr.aaMem != 0) l.aa q.gam gamk)
        else some (q, l.dir, l.aa)
    else some (q0, l.dir, l.aa)
  step.map (fun w =>
    let q := w.1
    let dir1 := w.2.1
    let aa1 := w.2.2
    let phi1 := psi1 + Flt.fin 1 / (Flt.fin 2 * q.gam) * q.nsp + q.gTp
    let tau1 := l.tau / 2
    let c0 := phi1 - (phik - snp)
    let cond :=
      if pr.altLs then
        c0 - (Flt.fin (1/2) / q.gam - Flt.fin (1/2) / gamk) * nspk
      else c0
    { tau := tau1, L1 := q.L, sig1 := q.sig, gam1 := q.gam, x1 := x1,
      psi1 := psi1, g1 := g1, xh1 := q.xh, p1 := q.p, psih1 := q.psih,
      yh1 := q.yh, gTp1 := q.gTp, nsp1 := q.nsp, phi1 := phi1,
      cond := cond, dir := dir1, aa := aa1 })

/-- The PANOC line-search do-while loop (panoc.hpp:315-374): run a pass,
then repeat while `ls_cond > 0 ∧ τ ≥ τ_min`. -/
def lsLoop {δ : Type} (P : Problem) (pr : Params) (D : DirOps δ)
    (xk pk qk xhk ghk : Vec) (psihk phik snp gamk Lk sigk : Flt) :
    Nat → LsSt δ → Option (LsSt δ)
  | 0, _ => none
  | fuel + 1, l =>
    match lsPass P pr D xk pk qk xhk ghk psihk phik snp gamk Lk sigk fuel l with
    | none => none
    | some l' =>
      if Flt.blt (Flt.fin 0) l'.cond && decide (pr.tauMin ≤ l'.tau) then
        lsLoop P pr D xk pk qk xhk ghk psihk phik snp gamk Lk sigk fuel l'
      else some l'

/-- The line-search failure tally (panoc.hpp:376-379): after the loop, if
`τ < τ_min ∧ k ≠ 0`, increment the `linesearch_failures` counter. -/
def lsFailTally (pr : Params) (tau : ℚ) (k c : Nat) : Nat :=
  if decide (tau < pr.tauMin) && decide (k ≠ 0) then c + 1 else c

/-- The exit block of the PANOC main loop (panoc.hpp:225-244): write `x`,
`y` and `err_z` only when converged, interrupted, or
`always_overwrite_results` is set; fill in the statistics and pick the
status. -/
def panocExit {δ : Type} (C : Ctx δ) (s : St δ) (k : Nat) (ek : Flt)
    (conv oot oit nf intr mnp : Bool) : SolveResult :=
  let write := conv || intr || C.aov
  { iters := k, epsv := ek,
    status := exitStatus conv oot oit nf mnp,
    lsFails := s.lsFails, lbFails := s.lbFails, lbRej := s.lbRej,
    x := if write then s.xhk else C.xin,
    y := if write then s.yhk else C.yin,
    ez := if write then C.P.errz s.xhk else C.ezin,
    xhEx := s.xhk, yhEx := s.yhk, gamEx := s.gam, LEx := s.L }

/-- The head of one PANOC iteration (panoc.hpp:170-203): the pre-loop
quadratic-upper-bound adaptation (at k = 0 or when
`update_lipschitz_in_linesearch` is off), the changed-γ notifications, the
direction-provider initialization at k = 0, and the computation of
`∇ψ(x̂ₖ)` from the cached ŷ. -/
def panocPre {δ : Type} (C : Ctx δ) (fuel k : Nat) (s : St δ) :
    Option (St δ) :=
  let oldg := s.gam
  let pre : Option (St δ) :=
    if k == 0 || !C.pr.updLip then
      (qubLoop C.P C.pr.qubT s.xk s.gk s.psik fuel
          { L := s.L, sig := s.sig, gam := s.gam, xh := s.xhk, p := s.pk,
            gTp := s.gTp, nsp := s.nsp, psih := s.psihk, yh := s.yhk }).map
        (fun q =>
          { s with L := q.L, sig := q.sig, gam := q.gam, xhk := q.xh,
                   pk := q.p, gTp := q.gTp, nsp := q.nsp, psihk := q.psih,
                   yhk := q.yh })
    else some s
  pre.map (fun s0 =>
    let cnd := decide (k > 0) && !Flt.beq s0.gam oldg
    let dir1 := if cnd then C.D.changedGamma s0.dir s0.gam oldg else s0.dir
    let aa1 := if cnd then aaChangedGamma (C.pr.aaMem != 0) s0.aa s0.gam oldg
               else s0.aa
    let dir2 := if k == 0 then C.D.init dir1 s0.xk s0.xhk s0.pk s0.gk else dir1
    { s0 with dir := dir2, aa := aa1,
              ghk := C.P.gradFromYhat s0.xhk s0.yhk })

/-- The tail of one PANOC iteration (panoc.hpp:247-414), reached when no
exit flag fired: quasi-Newton step, Anderson acceleration, line search,
statistics and no-progress bookkeeping, Anderson swaps and the advance
step.  Always produces an advanced state (`Sum.inr`) or runs out of
fuel. -/
def panocTail {δ : Type} (C : Ctx δ) (fuel k : Nat) (s3 : St δ) :
    Option (SolveResult ⊕ St δ) :=
      let qk4 :=
        if decide (k > 0) then C.D.applyDir s3.dir s3.xk s3.xhk s3.pk
        else s3.qk
      let aaR : Bool × AAState × Vec × Vec × Flt × Vec :=
        if C.pr.aaMem != 0 then
          if k == 0 then
            let rp := smul (Flt.neg s3.gam) s3.gk
            let ya := vadd s3.xk rp
            (false, { s3.aa with rp := rp, ya := ya, G := setCol s3.aa.G 0 ya },
              s3.xhk, s3.pk, s3.psihk, s3.ghk)
          else
            andersonStep C.P C.minUpd s3.gam s3.xk s3.gk s3.psihk
              s3.xhk s3.pk s3.ghk s3.aa
        else (false, s3.aa, s3.xhk, s3.pk, s3.psihk, s3.ghk)
      let accepted := aaR.1
      let aa5 := aaR.2.1
      let xhk5 := aaR.2.2.1
      let pk5 := aaR.2.2.2.1
      let psihk5 := aaR.2.2.2.2.1
      let ghk5 := aaR.2.2.2.2.2
      let snp := s3.sig * s3.nsp / (s3.gam * s3.gam)
      let t0 := initTau k qk4
      let lbF0 := decide (k ≠ 0) && !allFinite qk4
      let lbFails6 := if lbF0 then s3.lbFails + 1 else s3.lbFails
      let dir6 := if lbF0 then C.D.reset s3.dir else s3.dir
      let l0 : LsSt δ :=
        { tau := t0, L1 := s3.L, sig1 := s3.sig, gam1 := s3.gam, x1 := [],
          psi1 := Flt.nonfin, g1 := [], xh1 := [], p1 := [],
          psih1 := Flt.nonfin, yh1 := [], gTp1 := Flt.nonfin,
          nsp1 := Flt.nonfin, phi1 := Flt.nonfin, cond := Flt.nonfin,
          dir := dir6, aa := aa5 }
      (lsLoop C.P C.pr C.D s3.xk pk5 qk4 xhk5 ghk5 psihk5
          s3.phik snp s3.gam s3.L s3.sig fuel l0).map (fun l =>
        let lsFails1 := lsFailTally C.pr l.tau k s3.lsFails
        let upd := C.D.update l.dir s3.xk l.x1 pk5 l.p1 l.g1 l.gam1
        let lbRej1 := s3.lbRej + (if upd.1 then 0 else 1)
        let np1 := panocNoProg C.pr.mem k s3.noProg s3.xk l.x1
        let aa1 :=
          if decide (k > 0) && (C.pr.aaMem != 0) then
            let a0 := l.aa
            let a1 := if accepted then a0 else { a0 with ya := a0.ga, ga := a0.ya }
            { a1 with r := a1.rp, rp := a1.r }
          else l.aa
        Sum.inr
          { xk := l.x1, xhk := l.xh1, yhk := l.yh1, pk := l.p1, qk := qk4,
            gk := l.g1, ghk := ghk5,
            L := l.L1, sig := l.sig1, gam := l.gam1,
            psik := l.psi1, psihk := l.psih1, phik := l.phi1,
            gTp := l.gTp1, nsp := l.nsp1,
            noProg := np1, lsFails := lsFails1, lbFails := lbFails6,
            lbRej := lbRej1, dir := upd.2, aa := aa1 })

/-- One iteration of the PANOC main loop (panoc.hpp:168-415): head phase,
stop test and exit block (panoc.hpp:205-245), then the tail phase. -/
def panocIter {δ : Type} (C : Ctx δ) (fuel k : Nat) (s : St δ) :
    Option (SolveResult ⊕ St δ) :=
  (panocPre C fuel k s).bind (fun s3 =>
    let ek := stopCrit s3.pk s3.gam s3.ghk s3.gk
    let oot := C.oot k
    let oit := k == C.pr.maxIter
    let intr := C.stopSig k
    let nf := !ek.isFinite
    let conv := Flt.ble ek C.tol
    let mnp := panocNoProgExit C.pr.mem s3.noProg
    if conv || oit || oot || nf || intr || mnp then
      some (Sum.inl (panocExit C s3 k ek conv oot oit nf intr mnp))
    else panocTail C fuel k s3)

/-- The PANOC main loop (panoc.hpp:168-415), recursing on remaining
iterations. -/
def panocRun {δ : Type} (C : Ctx δ) (fuel : Nat) :
    Nat → Nat → St δ → Option SolveResult
  | _, 0, _ => none
  | k, iters + 1, s =>
    match panocIter C fuel k s with
    | none => none
    | some (Sum.inl r) => some r
    | some (Sum.inr s') => panocRun C fuel (k + 1) iters s'

/-- The initial Lipschitz estimate of PANOC (panoc.hpp:130-140): perturb a
working copy `xₖ₊₁ = xₖ + h` (the caller's `x` is not touched) and take the
finite-difference quotient. -/
def panocInitL {δ : Type} (C : Ctx δ) : Flt :=
  let h := hVec C.xin C.pr.Le C.pr.Ld
  estimateL C.nrm (C.P.grad (vadd C.xin h)) (C.P.psiGrad C.xin).2 h

/-- The result of the early NotFinite return of PANOC (panoc.hpp:143-146):
only the status field of the default-initialized Stats is set; `x`, `y` and
`err_z` are not written, regardless of `always_overwrite_results`. -/
def panocNFRes {δ : Type} (C : Ctx δ) : SolveResult :=
  { iters := 0, epsv := Flt.nonfin, status := .NotFinite,
    lsFails := 0, lbFails := 0, lbRej := 0,
    x := C.xin, y := C.yin, ez := C.ezin,
    xhEx := [], yhEx := [], gamEx := Flt.nonfin, LEx := Flt.nonfin }

/-- The state of PANOC at entry to iteration 0, given the clamped initial
Lipschitz estimate (panoc.hpp:148-164): step size and FBE coefficient, the
first projected gradient step and the forward-backward envelope. -/
def panocInitSt {δ : Type} (C : Ctx δ) (L0 : Flt) : St δ :=
  let pg0 := C.P.psiGrad C.xin
  let gam0 := Flt.fin C.pr.Lgf / L0
  let sig0 := gam0 * (Flt.fin 1 - gam0 * L0) / Flt.fin 2
  let xp := calcXhat C.P gam0 C.xin pg0.2
  let py := C.P.psiYhat xp.1
  let gTp0 := dot pg0.2 xp.2
  let nsp0 := squaredNorm xp.2
  let phi0 := pg0.1 + Flt.fin 1 / (Flt.fin 2 * gam0) * nsp0 + gTp0
  let dir0 := C.D.resize C.d0 C.P.n C.pr.mem
  { xk := C.xin, xhk := xp.1, yhk := py.2, pk := xp.2,
    qk := List.replicate C.P.n Flt.nonfin,
    gk := pg0.2, ghk := List.replicate C.P.n Flt.nonfin,
    L := L0, sig := sig0, gam := gam0,
    psik := pg0.1, psihk := py.1, phik := phi0,
    gTp := gTp0, nsp := nsp0,
    noProg := 0, lsFails := 0, lbFails := 0, lbRej := 0,
    dir := dir0, aa := initAA C.pr.aaMem C.P.n C.P.m }

/-- The full PANOC solve (`PANOCSolver::operator()`, panoc.hpp:21-417). -/
def panocSolve {δ : Type} (C : Ctx δ) (fuel : Nat) : Option SolveResult :=
  match clampL (panocInitL C) with
  | none => some (panocNFRes C)
  | some L0 => panocRun C fuel 0 (C.pr.maxIter + 1) (panocInitSt C L0)


/-! ## Concrete fixtures used by witnesses and counterexamples

A one-dimensional quadratic problem whose adaptation loops exit
immediately, plus degenerate variants.  The norm oracle is the l1 norm,
which agrees with the Euclidean norm on the one-dimensional vectors the
fixtures use. -/

/-- First component of a vector, defaulting to 0. -/
def fstOr0 (v : Vec) : Flt := v.getD 0 (Flt.fin 0)

/-- The l1 norm, standing in for the external Euclidean-norm oracle; the two
agree on the one-dimensional vectors the fixtures use. -/
def l1norm (v : Vec) : Flt := (cwiseAbs v).foldl Flt.add (Flt.fin 0)

/-- One-dimensional quadratic test problem: ψ(x) = ½x₀², ∇ψ(x) = x, C = ℝ,
ŷ ≡ (7), g(x̂) − ẑ ≡ (99).  Its quadratic upper bound with L = 1 is exact,
so the adaptation loops exit immediately, and the initial finite-difference
Lipschitz estimate is exactly 1. -/
def quadProblem : Problem :=
  { n := 1, m := 1,
    psiYhat := fun x => (Flt.fin (1/2) * fstOr0 x * fstOr0 x, [Flt.fin 7]),
    psiGrad := fun x => (Flt.fin (1/2) * fstOr0 x * fstOr0 x, x),
    grad := fun x => x,
    gradFromYhat := fun x _ => x,
    proj := fun v => v,
    errz := fun _ => [Flt.fin 99] }

/-- One-dimensional problem whose gradient oracle returns a non-finite
value, so the initial Lipschitz estimate is non-finite. -/
def nanProblem : Problem :=
  { n := 1, m := 1,
    psiYhat := fun x => (fstOr0 x, [Flt.fin 7]),
    psiGrad := fun x => (fstOr0 x, [Flt.nonfin]),
    grad := fun _ => [Flt.nonfin],
    gradFromYhat := fun _ _ => [Flt.nonfin],
    proj := fun v => v,
    errz := fun _ => [Flt.fin 99] }

/-- Trivial direction provider with unit state. -/
def noDir : DirOps Unit :=
  { resize := fun s _ _ => s, init := fun s _ _ _ _ => s,
    applyDir := fun _ _ _ _ => [], update := fun s _ _ _ _ _ _ => (true, s),
    changedGamma := fun s _ _ => s, reset := fun s => s }

/-- Trivial Anderson least-squares oracle (never reached when Anderson is
disabled). -/
def noMinUpd : LimitedMemoryQR → List Vec → Vec → Vec → Vec →
    LimitedMemoryQR × List Vec × Vec × Vec :=
  fun qr G _ _ _ => (qr, G, [Flt.fin 0], [Flt.fin 0])

/-- Default PANOC parameters of the fixtures. -/
def fixParams : Params :=
  { Le := 1, Ld := 1, Lgf := 19/20, maxIter := 0, tauMin := 1/256,
    qubT := 0, updLip := true, altLs := false, aaMem := 0, mem := 10 }

/-- PANOC context for the C1 counterexample: the out-of-time oracle fires
at every iteration and `max_iter = 0`, so at k = 0 both the out-of-iter and
the out-of-time exit flags are raised; the iterate is not converged there
(ε̂₀ = 1/20 > ε = 1/1000). -/
def cexC1Ctx : Ctx Unit :=
  { P := quadProblem, pr := fixParams, D := noDir, d0 := (),
    minUpd := noMinUpd, nrm := l1norm,
    oot := fun _ => true, stopSig := fun _ => false,
    tol := Flt.fin (1/1000), aov := false,
    xin := [Flt.fin 1], yin := [Flt.fin 0], ezin := [Flt.fin 0] }

/-- State of the C1 counterexample run at entry to iteration 0. -/
def c1CexSt0 : St Unit :=
  { xk := [Flt.fin 1], xhk := [Flt.fin (1/20)], yhk := [Flt.fin 7],
    pk := [Flt.fin (-(19/20))], qk := [Flt.nonfin], gk := [Flt.fin 1],
    ghk := [Flt.nonfin], L := Flt.fin 1, sig := Flt.fin (19/800),
    gam := Flt.fin (19/20), psik := Flt.fin (1/2), psihk := Flt.fin (1/800),
    phik := Flt.fin (1/40), gTp := Flt.fin (-(19/20)),
    nsp := Flt.fin (361/400), noProg := 0, lsFails := 0, lbFails := 0,
    lbRej := 0, dir := (), aa := initAA 0 1 1 }

/-- Result of the C1 counterexample run. -/
def c1CexRes : SolveResult :=
  { iters := 0, epsv := Flt.fin (1/20), status := SolverStatus.MaxTime,
    lsFails := 0, lbFails := 0, lbRej := 0,
    x := [Flt.fin 1], y := [Flt.fin 0], ez := [Flt.fin 0],
    xhEx := [Flt.fin (1/20)], yhEx := [Flt.fin 7],
    gamEx := Flt.fin (19/20), LEx := Flt.fin 1 }

/-- PGA context for the C2 counterexample: `max_iter = 0`, no time-out, no
stop signal, tolerance too small to converge, so the k = 0 exit has status
MaxIter. -/
def cexC2Ctx : PCtx :=
  { P := quadProblem,
    pg := { Le := 1, Ld := 1, Lgf := 19/20, maxIter := 0 },
    nrm := l1norm, oot := fun _ => false, stopSig := fun _ => false,
    tol := Flt.fin (1/1000),
    xin := [Flt.fin 1], yin := [Flt.fin 0], ezin := [Flt.fin 0] }

/-- State of the C2 counterexample run at entry to iteration 0. -/
def c2CexSt0 : PSt :=
  { xk := [Flt.fin 1], gk := [Flt.fin 1], psik := Flt.fin (1/2),
    L := Flt.fin 1, gam := Flt.fin (19/20), np := 0 }

/-- Result of the C2 counterexample run: status MaxIter, yet x, y, err_z
all overwritten. -/
def c2CexRes : SolveResult :=
  { iters := 0, epsv := Flt.fin (1/20), status := SolverStatus.MaxIter,
    lsFails := 0, lbFails := 0, lbRej := 0,
    x := [Flt.fin (1/20)], y := [Flt.fin 7], ez := [Flt.fin 99],
    xhEx := [Flt.fin (1/20)], yhEx := [Flt.fin 7],
    gamEx := Flt.fin (19/20), LEx := Flt.fin 1 }

/-- The finite-difference perturbation as the spec words it (spec 4.2:
`hᵢ = max(|x₀ᵢ|·ε_L, δ_L)` componentwise); to be compared with the
source-side `hVec`. -/
def specPerturbation (x : Vec) (e d : ℚ) : Vec :=
  x.map (fun a => Flt.fmax (Flt.fabs a * Flt.fin e) (Flt.fin d))

/-- The initial Lipschitz estimate as the spec words it (spec 4.2:
`L₀ = ‖∇ψ(x₀ + h) − ∇ψ(x₀)‖ / ‖h‖`); to be compared with the source-side
`panocInitL`/`pgaInitL`. -/
def specInitialLipschitz (nrm : Vec → Flt) (P : Problem) (x0 : Vec)
    (e d : ℚ) : Flt :=
  let h := specPerturbation x0 e d
  nrm (vsub (P.grad (vadd x0 h)) (P.grad x0)) / nrm h

/-- PANOC context over the problem with a non-finite gradient, with
`always_overwrite_results` set. -/
def cexC7Ctx : Ctx Unit :=
  { P := nanProblem, pr := fixParams, D := noDir, d0 := (),
    minUpd := noMinUpd, nrm := l1norm,
    oot := fun _ => false, stopSig := fun _ => false,
    tol := Flt.fin (1/1000), aov := true,
    xin := [Flt.fin 1], yin := [Flt.fin 2], ezin := [Flt.fin 3] }

/-- PGA context over the problem with a non-finite gradient. -/
def cexC7PCtx : PCtx :=
  { P := nanProblem,
    pg := { Le := 1, Ld := 1, Lgf := 19/20, maxIter := 0 },
    nrm := l1norm, oot := fun _ => false, stopSig := fun _ => false,
    tol := Flt.fin (1/1000),
    xin := [Flt.fin 1], yin := [Flt.fin 2], ezin := [Flt.fin 3] }

/-- Quadratic-upper-bound state of the C1 fixture at k = 0 (its loop
condition is false at entry). -/
def c1Qub : QubSt :=
  { L := Flt.fin 1, sig := Flt.fin (19/800), gam := Flt.fin (19/20),
    xh := [Flt.fin (1/20)], p := [Flt.fin (-(19/20))],
    gTp := Flt.fin (-(19/20)), nsp := Flt.fin (361/400),
    psih := Flt.fin (1/800), yh := [Flt.fin 7] }

/-- Zero-dimensional degenerate problem: every vector is empty and ψ ≡ 0. -/
def nilProblem : Problem :=
  { n := 0, m := 0,
    psiYhat := fun _ => (Flt.fin 0, []),
    psiGrad := fun _ => (Flt.fin 0, []),
    grad := fun _ => [],
    gradFromYhat := fun _ _ => [],
    proj := fun v => v,
    errz := fun _ => [] }

/-- Line-search state entering the single k = 0 pass of the
zero-dimensional fixture (τ forced to 0). -/
def c5LsIn : LsSt Unit :=
  { tau := 0, L1 := Flt.fin 1, sig1 := Flt.fin 0,
    gam1 := Flt.fin 1, x1 := [], psi1 := Flt.nonfin, g1 := [],
    xh1 := [], p1 := [], psih1 := Flt.nonfin, yh1 := [],
    gTp1 := Flt.nonfin, nsp1 := Flt.nonfin, phi1 := Flt.nonfin,
    cond := Flt.nonfin, dir := (), aa := initAA 0 0 0 }

/-- Line-search state after that pass: the pure proximal candidate was
taken (τ/2 = 0 < τ_min). -/
def c5LsOut : LsSt Unit :=
  { tau := 0, L1 := Flt.fin 1, sig1 := Flt.fin 0,
    gam1 := Flt.fin 1, x1 := [], psi1 := Flt.fin 0, g1 := [],
    xh1 := [], p1 := [], psih1 := Flt.fin 0, yh1 := [],
    gTp1 := Flt.fin 0, nsp1 := Flt.fin 0, phi1 := Flt.fin 0,
    cond := Flt.fin 0, dir := (), aa := initAA 0 0 0 }

/-- Anderson state after one accepted step of the Anderson fixture. -/
def c6AAOut : AAState :=
  { rp := [Flt.nonfin], r := [Flt.nonfin], ya := [Flt.fin 0],
    xa := [Flt.fin (1/20)], ga := [Flt.fin (1/20)], gls := [Flt.fin 0],
    yha := [Flt.fin 7], G := [[Flt.nonfin]],
    qr := { cap := 1, cols := 0, tail := 0, rscale := Flt.fin 1 } }

/-- A finite, strictly positive scalar. -/
def finPos (a : Flt) : Prop := ∃ q : ℚ, a = Flt.fin q ∧ 0 < q

/-- Monotone evolution of the (step size, Lipschitz estimate) pair: both
ends finite and positive, γ non-increasing, L non-decreasing. -/
def stepMono (g L g' L' : Flt) : Prop :=
  ∃ a b a' b' : ℚ,
    g = Flt.fin a ∧ L = Flt.fin b ∧ g' = Flt.fin a' ∧ L' = Flt.fin b' ∧
    0 < a ∧ 0 < b ∧ 0 < a' ∧ 0 < b' ∧ a' ≤ a ∧ b ≤ b'

/-! ## Helper lemmas -/

namespace Flt

@[simp] theorem add_eq (a b : Flt) : a + b = Flt.add a b := rfl

@[simp] theorem sub_eq (a b : Flt) : a - b = Flt.sub a b := rfl

@[simp] theorem mul_eq (a b : Flt) : a * b = Flt.mul a b := rfl

@[simp] theorem div_eq (a b : Flt) : a / b = Flt.div a b := rfl

@[simp] theorem neg_eq (a : Flt) : -a = Flt.neg a := rfl

@[simp] theorem add_fin (a b : ℚ) : add (fin a) (fin b) = fin (a + b) := rfl

@[simp] theorem add_nfl (b : Flt) : add nonfin b = nonfin := rfl

@[simp] theorem add_nfr (a : Flt) : add a nonfin = nonfin := by cases a <;> rfl

@[simp] theorem sub_fin (a b : ℚ) : sub (fin a) (fin b) = fin (a - b) := rfl

@[simp] theorem sub_nfl (b : Flt) : sub nonfin b = nonfin := rfl

@[simp] theorem sub_nfr (a : Flt) : sub a nonfin = nonfin := by cases a <;> rfl

@[simp] theorem mul_fin (a b : ℚ) : mul (fin a) (fin b) = fin (a * b) := rfl

@[simp] theorem mul_nfl (b : Flt) : mul nonfin b = nonfin := rfl

@[simp] theorem mul_nfr (a : Flt) : mul a nonfin = nonfin := by cases a <;> rfl

@[simp] theorem div_fin (a b : ℚ) :
    div (fin a) (fin b) = if b = 0 then nonfin else fin (a / b) := rfl

@[simp] theorem div_nfl (b : Flt) : div nonfin b = nonfin := rfl

@[simp] theorem div_nfr (a : Flt) : div a nonfin = nonfin := by cases a <;> rfl

@[simp] theorem neg_fin (a : ℚ) : neg (fin a) = fin (-a) := rfl

@[simp] theorem neg_nf : neg nonfin = nonfin := rfl

@[simp] theorem fabs_fin_ite (a : ℚ) :
    fabs (fin a) = fin (if a < 0 then -a else a) := rfl

@[simp] theorem fabs_nf : fabs nonfin = nonfin := rfl

@[simp] theorem blt_fin (a b : ℚ) : blt (fin a) (fin b) = decide (a < b) := rfl

@[simp] theorem blt_nfl (b : Flt) : blt nonfin b = false := rfl

@[simp] theorem blt_nfr (a : Flt) : blt a nonfin = false := by cases a <;> rfl

@[simp] theorem ble_fin (a b : ℚ) : ble (fin a) (fin b) = decide (a ≤ b) := rfl

@[simp] theorem ble_nfl (b : Flt) : ble nonfin b = false := rfl

@[simp] theorem ble_nfr (a : Flt) : ble a nonfin = false := by cases a <;> rfl

@[simp] theorem beq_fin (a b : ℚ) : beq (fin a) (fin b) = decide (a = b) := rfl

@[simp] theorem beq_nfl (b : Flt) : beq nonfin b = false := rfl

@[simp] theorem beq_nfr (a : Flt) : beq a nonfin = false := by cases a <;> rfl

@[simp] theorem isFinite_fin (a : ℚ) : isFinite (fin a) = true := rfl

@[simp] theorem isFinite_nf : isFinite nonfin = false := rfl

@[simp] theorem fmax_fin (a b : ℚ) : fmax (fin a) (fin b) = fin (max a b) := rfl

@[simp] theorem fmax_nfl (b : Flt) : fmax nonfin b = nonfin := rfl

@[simp] theorem fmax_nfr (a : Flt) : fmax a nonfin = nonfin := by cases a <;> rfl

end Flt

/-- When its condition fails at entry, the PANOC quadratic-upper-bound loop
returns its input for any fuel. -/
theorem qubLoop_exit (P : Problem) (th : ℚ) (x g : Vec) (psi : Flt)
    (fuel : Nat) (q : QubSt)
    (h : (qubViol psi q.psih q.gTp q.L q.nsp && qubGuard th psi q.gTp) = false) :
    qubLoop P th x g psi fuel q = some q := by
  cases fuel with
  | zero => simp [qubLoop, h]
  | succ n => simp [qubLoop, h]

/-- When its condition fails at entry, the PGA quadratic-upper-bound loop
returns its input for any fuel. -/
theorem pgaQubLoop_exit (P : Problem) (xk gk : Vec) (psik : Flt)
    (fuel : Nat) (q : PQub) (h : pgaQubCond psik q = false) :
    pgaQubLoop P xk gk psik fuel q = some q := by
  cases fuel with
  | zero => simp [pgaQubLoop, h]
  | succ n => simp [pgaQubLoop, h]

theorem map_ne_inl {A B R : Type} (o : Option A) (f : A → R ⊕ B)
    (hf : ∀ a, ∃ b, f a = Sum.inr b) (r : R) : o.map f ≠ some (Sum.inl r) := by
  intro h
  cases o with
  | none => simp at h
  | some a =>
    obtain ⟨b, hb⟩ := hf a
    rw [Option.map_some', hb] at h
    simp at h

/-- The tail phase of a PANOC iteration never produces an exit result. -/
theorem panocTail_ne_inl {δ : Type} (C : Ctx δ) (fuel k : Nat) (s : St δ)
    (r : SolveResult) : panocTail C fuel k s ≠ some (Sum.inl r) := by
  exact map_ne_inl _ _ (fun l => ⟨_, rfl⟩) r

theorem fabs_fin (a : ℚ) : Flt.fabs (Flt.fin a) = Flt.fin |a| := by
  simp only [Flt.fabs]
  split
  · rw [abs_of_neg (by assumption)]
  · rw [abs_of_nonneg (le_of_not_lt (by assumption))]

/-- Under a nonnegative relative-perturbation parameter, the source-side
perturbation `(x·ε).cwiseAbs().cwiseMax(δ)` equals the spec-side
`max(|x₀ᵢ|·ε, δ)` componentwise. -/
theorem hVec_eq_spec (x : Vec) (e d : ℚ) (he : 0 ≤ e) :
    hVec x e d = specPerturbation x e d := by
  simp only [hVec, specPerturbation, cwiseMaxS, cwiseAbs, smul, List.map_map]
  refine List.map_congr_left (fun a _ => ?_)
  cases a with
  | nonfin => rfl
  | fin b =>
    simp only [Function.comp, Flt.mul_eq, Flt.mul, fabs_fin, Flt.fmax,
      abs_mul, abs_of_nonneg he]
    rw [mul_comm]

theorem c7Cex_clampP : clampL (panocInitL cexC7Ctx) = none := by
  norm_num [panocInitL, clampL, estimateL, hVec, machEps, cexC7Ctx,
    nanProblem, fixParams, l1norm, fstOr0, vadd, vsub, smul, cwiseAbs,
    cwiseMaxS, Flt.add, Flt.sub, Flt.mul, Flt.div, Flt.neg, Flt.fabs,
    Flt.blt, Flt.isFinite, Flt.fmax]

theorem c7Cex_clampG : clampL (pgaInitL cexC7PCtx) = none := by
  norm_num [pgaInitL, clampL, estimateL, hVec, machEps, cexC7PCtx,
    nanProblem, l1norm, fstOr0, vadd, vsub, smul, cwiseAbs,
    cwiseMaxS, Flt.add, Flt.sub, Flt.mul, Flt.div, Flt.neg, Flt.fabs,
    Flt.blt, Flt.isFinite, Flt.fmax]

/-- A false IEEE-style strict comparison between finite values gives the
reversed non-strict comparison. -/
theorem blt_false_ble (a b : Flt) (ha : a.isFinite = true)
    (hb : b.isFinite = true) (h : Flt.blt a b = false) :
    Flt.ble b a = true := by
  cases a with
  | nonfin => simp [Flt.isFinite] at ha
  | fin qa =>
    cases b with
    | nonfin => simp [Flt.isFinite] at hb
    | fin qb =>
      simp only [Flt.blt, decide_eq_false_iff_not, not_lt] at h
      simpa [Flt.ble] using h

/-- When the combined PANOC quadratic-upper-bound condition is false, one
of its two conjuncts is false. -/
theorem qub_exit_post (psi : Flt) (th : ℚ) (q : QubSt)
    (hc : (qubViol psi q.psih q.gTp q.L q.nsp && qubGuard th psi q.gTp) = false) :
    qubViol psi q.psih q.gTp q.L q.nsp = false ∨ qubGuard th psi q.gTp = false := by
  cases hv : qubViol psi q.psih q.gTp q.L q.nsp
  · exact Or.inl rfl
  · cases hg : qubGuard th psi q.gTp
    · exact Or.inr rfl
    · rw [hv, hg] at hc
      exact absurd hc (by simp)

set_option maxHeartbeats 1000000 in
theorem c5Cex_pass :
    lsPass nilProblem fixParams noDir [] [] [] [] [] (Flt.fin 0)
      (Flt.fin 0) (Flt.fin 0) (Flt.fin 1) (Flt.fin 1) (Flt.fin 0)
      8 c5LsIn = some c5LsOut := by
  norm_num [lsPass, lsCandidate, c5LsIn, c5LsOut, fixParams, nilProblem,
    qubLoop, qubViol, qubGuard, calcXhat, noDir, initAA,
    dot, squaredNorm, vadd, vsub, smul]

theorem c6Cex_step :
    andersonStep quadProblem noMinUpd (Flt.fin (19/20)) [Flt.fin 1]
      [Flt.fin 1] (Flt.fin (1/800)) [Flt.fin (1/20)] [Flt.fin (-(19/20))]
      [Flt.fin (1/20)] (initAA 1 1 1) =
    (true, c6AAOut, [Flt.fin 0], [Flt.fin (-1)], Flt.fin 0, [Flt.fin 0]) := by
  norm_num [andersonStep, initAA, aaDepth, noMinUpd, quadProblem, c6AAOut,
    qrReset, getCol, setCol, fstOr0, allFinite, List.replicate,
    vadd, vsub, smul, dot, squaredNorm,
    Flt.add, Flt.sub, Flt.mul, Flt.div, Flt.neg, Flt.fabs, Flt.blt,
    Flt.isFinite, Flt.fmax]

theorem stepMono_refl {g L : Flt} (hg : finPos g) (hL : finPos L) :
    stepMono g L g L := by
  obtain ⟨a, rfl, ha⟩ := hg
  obtain ⟨b, rfl, hb⟩ := hL
  exact ⟨a, b, a, b, rfl, rfl, rfl, rfl, ha, hb, ha, hb, le_refl a, le_refl b⟩

theorem stepMono_trans {g1 L1 g2 L2 g3 L3 : Flt} (h1 : stepMono g1 L1 g2 L2)
    (h2 : stepMono g2 L2 g3 L3) : stepMono g1 L1 g3 L3 := by
  obtain ⟨a1, b1, a2, b2, e1, e2, e3, e4, p1, p2, p3, p4, le1, le2⟩ := h1
  obtain ⟨a2', b2', a3, b3, f1, f2, f3, f4, q1, q2, q3, q4, le3, le4⟩ := h2
  rw [e3] at f1
  rw [e4] at f2
  injection f1 with f1'
  injection f2 with f2'
  subst f1'
  subst f2'
  exact ⟨a1, b1, a3, b3, e1, e2, f3, f4, p1, p2, q3, q4, le3.trans le1,
    le2.trans le4⟩

theorem stepMono_right {g L g' L' : Flt} (h : stepMono g L g' L') :
    finPos g' ∧ finPos L' := by
  obtain ⟨a, b, a', b', _, _, e3, e4, _, _, p3, p4, _, _⟩ := h
  exact ⟨⟨a', e3, p3⟩, ⟨b', e4, p4⟩⟩

theorem stepMono_ble {g L g' L' : Flt} (h : stepMono g L g' L') :
    Flt.ble g' g = true ∧ Flt.ble L L' = true := by
  obtain ⟨a, b, a', b', rfl, rfl, rfl, rfl, _, _, _, _, le1, le2⟩ := h
  exact ⟨by simpa using le1, by simpa using le2⟩

theorem qubBody_mono (P : Problem) (x g : Vec) (q : QubSt)
    (hg : finPos q.gam) (hL : finPos q.L) :
    stepMono q.gam q.L (qubBody P x g q).gam (qubBody P x g q).L := by
  obtain ⟨a, ea, ha⟩ := hg
  obtain ⟨b, eb, hb⟩ := hL
  have e1 : (qubBody P x g q).gam = Flt.div q.gam (Flt.fin 2) := rfl
  have e2 : (qubBody P x g q).L = Flt.mul (Flt.fin 2) q.L := rfl
  rw [e1, e2, ea, eb]
  refine ⟨a, b, a / 2, 2 * b, rfl, rfl, by norm_num, by norm_num,
    ha, hb, by positivity, by positivity, by linarith, by linarith⟩

theorem qubLoop_mono (P : Problem) (th : ℚ) (x g : Vec) (psi : Flt) :
    ∀ (fuel : Nat) (q q' : QubSt),
      qubLoop P th x g psi fuel q = some q' → finPos q.gam → finPos q.L →
      stepMono q.gam q.L q'.gam q'.L := by
  intro fuel
  induction fuel with
  | zero =>
    intro q q' h hg hL
    simp only [qubLoop] at h
    split at h
    · exact absurd h (by simp)
    · simp only [Option.some.injEq] at h
      subst h
      exact stepMono_refl hg hL
  | succ n ih =>
    intro q q' h hg hL
    simp only [qubLoop] at h
    split at h
    · have hb := qubBody_mono P x g q hg hL
      have hr := stepMono_right hb
      exact stepMono_trans hb (ih _ _ h hr.1 hr.2)
    · simp only [Option.some.injEq] at h
      subst h
      exact stepMono_refl hg hL

theorem pgaQubBody_mono (P : Problem) (xk gk : Vec) (q : PQub)
    (hg : finPos q.gam) (hL : finPos q.L) :
    stepMono q.gam q.L (pgaQubBody P xk gk q).gam (pgaQubBody P xk gk q).L := by
  obtain ⟨a, ea, ha⟩ := hg
  obtain ⟨b, eb, hb⟩ := hL
  have e1 : (pgaQubBody P xk gk q).gam = Flt.div q.gam (Flt.fin 2) := rfl
  have e2 : (pgaQubBody P xk gk q).L = Flt.mul (Flt.fin 2) q.L := rfl
  rw [e1, e2, ea, eb]
  refine ⟨a, b, a / 2, 2 * b, rfl, rfl, by norm_num, by norm_num,
    ha, hb, by positivity, by positivity, by linarith, by linarith⟩

theorem pgaQubLoop_mono (P : Problem) (xk gk : Vec) (psik : Flt) :
    ∀ (fuel : Nat) (q q' : PQub),
      pgaQubLoop P xk gk psik fuel q = some q' → finPos q.gam → finPos q.L →
      stepMono q.gam q.L q'.gam q'.L := by
  intro fuel
  induction fuel with
  | zero =>
    intro q q' h hg hL
    simp only [pgaQubLoop] at h
    split at h
    · exact absurd h (by simp)
    · simp only [Option.some.injEq] at h
      subst h
      exact stepMono_refl hg hL
  | succ n ih =>
    intro q q' h hg hL
    simp only [pgaQubLoop] at h
    split at h
    · have hb := pgaQubBody_mono P xk gk q hg hL
      have hr := stepMono_right hb
      exact stepMono_trans hb (ih _ _ h hr.1 hr.2)
    · simp only [Option.some.injEq] at h
      subst h
      exact stepMono_refl hg hL

theorem lsPass_mono {δ : Type} (P : Problem) (pr : Params) (D : DirOps δ)
    (xk pk qk xhk ghk : Vec) (psihk phik snp gamk Lk sigk : Flt)
    (fuel : Nat) (l l' : LsSt δ)
    (h : lsPass P pr D xk pk qk xhk ghk psihk phik snp gamk Lk sigk fuel l =
      some l')
    (hg : finPos gamk) (hL : finPos Lk) :
    stepMono gamk Lk l'.gam1 l'.L1 := by
  simp only [lsPass] at h
  rcases Option.map_eq_some'.mp h with ⟨w, hw, hfl⟩
  subst hfl
  show stepMono gamk Lk w.1.gam w.1.L
  split at hw
  · split at hw
    · exact absurd hw (by simp)
    · next q hq =>
      split at hw <;>
      · simp only [Option.some.injEq] at hw
        subst hw
        exact qubLoop_mono P pr.qubT _ _ _ fuel _ q hq hg hL
  · simp only [Option.some.injEq] at hw
    subst hw
    exact stepMono_refl hg hL

theorem lsLoop_mono {δ : Type} (P : Problem) (pr : Params) (D : DirOps δ)
    (xk pk qk xhk ghk : Vec) (psihk phik snp gamk Lk sigk : Flt) :
    ∀ (fuel : Nat) (l l' : LsSt δ),
      lsLoop P pr D xk pk qk xhk ghk psihk phik snp gamk Lk sigk fuel l =
        some l' →
      finPos gamk → finPos Lk → stepMono gamk Lk l'.gam1 l'.L1 := by
  intro fuel
  induction fuel with
  | zero =>
    intro l l' h
    simp only [lsLoop] at h
    exact absurd h (by simp)
  | succ n ih =>
    intro l l' h hg hL
    simp only [lsLoop] at h
    cases hp : lsPass P pr D xk pk qk xhk ghk psihk phik snp gamk Lk sigk n l with
    | none => rw [hp] at h; exact absurd h (by simp)
    | some l2 =>
      rw [hp] at h
      simp only at h
      split at h
      · exact ih _ _ h hg hL
      · simp only [Option.some.injEq] at h
        subst h
        exact lsPass_mono P pr D xk pk qk xhk ghk psihk phik snp gamk Lk
          sigk n l l2 hp hg hL

theorem panocPre_mono {δ : Type} (C : Ctx δ) (fuel k : Nat) (s s3 : St δ)
    (h : panocPre C fuel k s = some s3) (hg : finPos s.gam)
    (hL : finPos s.L) : stepMono s.gam s.L s3.gam s3.L := by
  simp only [panocPre] at h
  rcases Option.map_eq_some'.mp h with ⟨w, hw, hfw⟩
  subst hfw
  show stepMono s.gam s.L w.gam w.L
  split at hw
  · rcases Option.map_eq_some'.mp hw with ⟨qv, hq, hgw⟩
    subst hgw
    show stepMono s.gam s.L qv.gam qv.L
    exact qubLoop_mono C.P C.pr.qubT s.xk s.gk s.psik fuel _ qv hq hg hL
  · simp only [Option.some.injEq] at hw
    subst hw
    exact stepMono_refl hg hL

theorem panocTail_mono {δ : Type} (C : Ctx δ) (fuel k : Nat) (s3 : St δ)
    (s' : St δ) (h : panocTail C fuel k s3 = some (Sum.inr s'))
    (hg : finPos s3.gam) (hL : finPos s3.L) :
    stepMono s3.gam s3.L s'.gam s'.L := by
  simp only [panocTail] at h
  rcases Option.map_eq_some'.mp h with ⟨l, hl, hfl⟩
  simp only [Sum.inr.injEq] at hfl
  subst hfl
  exact lsLoop_mono C.P C.pr C.D _ _ _ _ _ _ _ _ _ _ _ fuel _ l hl hg hL

theorem panocIter_mono {δ : Type} (C : Ctx δ) (fuel k : Nat) (s : St δ) :
    (∀ s' : St δ, panocIter C fuel k s = some (Sum.inr s') →
      finPos s.gam → finPos s.L → stepMono s.gam s.L s'.gam s'.L) ∧
    (∀ r : SolveResult, panocIter C fuel k s = some (Sum.inl r) →
      finPos s.gam → finPos s.L → stepMono s.gam s.L r.gamEx r.LEx) := by
  constructor
  · intro s' h hg hL
    simp only [panocIter] at h
    cases hp : panocPre C fuel k s with
    | none => rw [hp] at h; exact absurd h (by simp)
    | some s3 =>
      rw [hp] at h
      simp only [Option.some_bind] at h
      split at h
      · exact absurd h (by simp)
      · exact stepMono_trans (panocPre_mono C fuel k s s3 hp hg hL)
          (panocTail_mono C fuel k s3 s' h
            (stepMono_right (panocPre_mono C fuel k s s3 hp hg hL)).1
            (stepMono_right (panocPre_mono C fuel k s s3 hp hg hL)).2)
  · intro r h hg hL
    simp only [panocIter] at h
    cases hp : panocPre C fuel k s with
    | none => rw [hp] at h; exact absurd h (by simp)
    | some s3 =>
      rw [hp] at h
      simp only [Option.some_bind] at h
      split at h
      · simp only [Option.some.injEq, Sum.inl.injEq] at h
        subst h
        exact panocPre_mono C fuel k s s3 hp hg hL
      · exact absurd h (panocTail_ne_inl C fuel k s3 r)

theorem panocRun_mono {δ : Type} (C : Ctx δ) (fuel : Nat) :
    ∀ (iters k : Nat) (s : St δ) (r : SolveResult),
      panocRun C fuel k iters s = some r → finPos s.gam → finPos s.L →
      stepMono s.gam s.L r.gamEx r.LEx := by
  intro iters
  induction iters with
  | zero =>
    intro k s r h
    exact absurd h (by simp [panocRun])
  | succ n ih =>
    intro k s r h hg hL
    simp only [panocRun] at h
    cases hi : panocIter C fuel k s with
    | none => rw [hi] at h; exact absurd h (by simp)
    | some o =>
      rw [hi] at h
      cases o with
      | inl r' =>
        simp only [Option.some.injEq] at h
        rw [← h]
        exact (panocIter_mono C fuel k s).2 r' hi hg hL
      | inr s' =>
        have h1 := (panocIter_mono C fuel k s).1 s' hi hg hL
        have hr := stepMono_right h1
        exact stepMono_trans h1 (ih (k + 1) s' r h hr.1 hr.2)

theorem pgaIter_mono (C : PCtx) (fuel k : Nat) (s : PSt) :
    (∀ s' : PSt, pgaIter C fuel k s = some (Sum.inr s') →
      finPos s.gam → finPos s.L → stepMono s.gam s.L s'.gam s'.L) ∧
    (∀ r : SolveResult, pgaIter C fuel k s = some (Sum.inl r) →
      finPos s.gam → finPos s.L → stepMono s.gam s.L r.gamEx r.LEx) := by
  constructor
  · intro s' h hg hL
    simp only [pgaIter] at h
    rcases Option.bind_eq_some.mp h with ⟨q, hq, hf⟩
    have hm := pgaQubLoop_mono C.P s.xk s.gk s.psik fuel _ q hq hg hL
    split at hf
    · exact absurd hf (by simp)
    · simp only [Option.some.injEq, Sum.inr.injEq] at hf
      subst hf
      exact hm
  · intro r h hg hL
    simp only [pgaIter] at h
    rcases Option.bind_eq_some.mp h with ⟨q, hq, hf⟩
    have hm := pgaQubLoop_mono C.P s.xk s.gk s.psik fuel _ q hq hg hL
    split at hf
    · simp only [Option.some.injEq, Sum.inl.injEq] at hf
      subst hf
      exact hm
    · exact absurd hf (by simp)

theorem pgaRun_mono (C : PCtx) (fuel : Nat) :
    ∀ (iters k : Nat) (s : PSt) (r : SolveResult),
      pgaRun C fuel k iters s = some r → finPos s.gam → finPos s.L →
      stepMono s.gam s.L r.gamEx r.LEx := by
  intro iters
  induction iters with
  | zero =>
    intro k s r h
    exact absurd h (by simp [pgaRun])
  | succ n ih =>
    intro k s r h hg hL
    simp only [pgaRun] at h
    cases hi : pgaIter C fuel k s with
    | none => rw [hi] at h; exact absurd h (by simp)
    | some o =>
      rw [hi] at h
      cases o with
      | inl r' =>
        simp only [Option.some.injEq] at h
        rw [← h]
        exact (pgaIter_mono C fuel k s).2 r' hi hg hL
      | inr s' =>
        have h1 := (pgaIter_mono C fuel k s).1 s' hi hg hL
        have hr := stepMono_right h1
        exact stepMono_trans h1 (ih (k + 1) s' r h hr.1 hr.2)

theorem clampL_pos (L : Flt) (L0 : Flt) (h : clampL L = some L0) :
    ∃ q : ℚ, L0 = Flt.fin q ∧ 0 < q := by
  simp only [clampL] at h
  split at h
  · simp only [Option.some.injEq] at h
    subst h
    exact ⟨machEps, rfl, by norm_num [machEps]⟩
  · next hlt =>
    split at h
    · next hfin =>
      cases L with
      | nonfin => simp at hfin
      | fin qa =>
        simp only [Option.some.injEq] at h
        subst h
        refine ⟨qa, rfl, ?_⟩
        have : ¬(qa < machEps) := by
          intro hc
          exact hlt (by simpa using hc)
        have h2 : (0 : ℚ) < machEps := by norm_num [machEps]
        linarith [not_lt.mp this]
    · exact absurd h (by simp)

theorem c1Cex_clamp : clampL (panocInitL cexC1Ctx) = some (Flt.fin 1) := by
  norm_num [panocInitL, clampL, estimateL, hVec, machEps, cexC1Ctx,
    quadProblem, fixParams, l1norm, fstOr0, vadd, vsub, smul, cwiseAbs,
    cwiseMaxS, Flt.add, Flt.sub, Flt.mul, Flt.div, Flt.neg, Flt.fabs,
    Flt.blt, Flt.isFinite, Flt.fmax]

theorem c1Cex_st : panocInitSt cexC1Ctx (Flt.fin 1) = c1CexSt0 := by
  norm_num [panocInitSt, calcXhat, initAA, c1CexSt0, cexC1Ctx, quadProblem,
    noDir, fixParams, fstOr0, vadd, vsub, smul, dot, squaredNorm,
    Flt.add, Flt.sub, Flt.mul, Flt.div, Flt.neg, Flt.fabs, Flt.fmax]

theorem c1Cex_pre :
    panocPre cexC1Ctx 9 0 c1CexSt0 = some { c1CexSt0 with ghk := [Flt.fin (1/20)] } := by
  simp only [panocPre, c1CexSt0, cexC1Ctx, fixParams, quadProblem, noDir]
  rw [qubLoop_exit]
  · norm_num [c1CexSt0, cexC1Ctx, fixParams, quadProblem, noDir, fstOr0]
  · norm_num [qubViol, qubGuard, Flt.add, Flt.sub, Flt.mul, Flt.div,
      Flt.fabs, Flt.blt]

theorem c1Cex_iter : panocIter cexC1Ctx 9 0 c1CexSt0 = some (Sum.inl c1CexRes) := by
  rw [panocIter, c1Cex_pre]
  norm_num [panocExit, exitStatus, stopCrit, panocNoProgExit, c1CexSt0,
    c1CexRes, cexC1Ctx, quadProblem, fixParams, fstOr0,
    vadd, vsub, smul, dot, squaredNorm,
    Flt.add, Flt.sub, Flt.mul, Flt.div, Flt.neg, Flt.fabs, Flt.blt, Flt.ble,
    Flt.isFinite, Flt.fmax]

theorem c1Cex_solve : panocSolve cexC1Ctx 9 = some c1CexRes := by
  have hmi : cexC1Ctx.pr.maxIter = 0 := rfl
  simp only [panocSolve, c1Cex_clamp, hmi, c1Cex_st, panocRun, c1Cex_iter]

theorem c2Cex_clamp : clampL (pgaInitL cexC2Ctx) = some (Flt.fin 1) := by
  norm_num [pgaInitL, clampL, estimateL, hVec, machEps, cexC2Ctx,
    quadProblem, l1norm, fstOr0, vadd, vsub, smul, cwiseAbs,
    cwiseMaxS, Flt.add, Flt.sub, Flt.mul, Flt.div, Flt.neg, Flt.fabs,
    Flt.blt, Flt.isFinite, Flt.fmax]

theorem c2Cex_st : pgaInitSt cexC2Ctx (Flt.fin 1) = c2CexSt0 := by
  norm_num [pgaInitSt, c2CexSt0, cexC2Ctx, quadProblem, fstOr0,
    Flt.add, Flt.sub, Flt.mul, Flt.div]

theorem c2Cex_iter : pgaIter cexC2Ctx 9 0 c2CexSt0 = some (Sum.inl c2CexRes) := by
  simp only [pgaIter, c2CexSt0, cexC2Ctx, quadProblem]
  rw [pgaQubLoop_exit]
  · norm_num [c2CexSt0, cexC2Ctx, quadProblem, c2CexRes, calcXhat, stopCrit,
      pgaNoProgExit, pgaNoProg, exitStatus, fstOr0,
      vadd, vsub, smul, dot, squaredNorm,
      Flt.add, Flt.sub, Flt.mul, Flt.div, Flt.neg, Flt.fabs, Flt.blt,
      Flt.ble, Flt.isFinite, Flt.fmax]
  · norm_num [pgaQubCond, calcXhat, fstOr0, vadd, vsub, smul, dot,
      squaredNorm, Flt.add, Flt.sub, Flt.mul, Flt.div, Flt.neg, Flt.fabs,
      Flt.blt, Flt.fmax]

theorem c2Cex_solve : pgaSolve cexC2Ctx 9 = some c2CexRes := by
  have hmi : cexC2Ctx.pg.maxIter = 0 := rfl
  simp only [pgaSolve, c2Cex_clamp, hmi, c2Cex_st, pgaRun, c2Cex_iter]

theorem c9Cex_qub :
    qubLoop quadProblem 0 [Flt.fin 1] [Flt.fin 1] (Flt.fin (1/2)) 5 c1Qub =
      some c1Qub :=
  qubLoop_exit quadProblem 0 [Flt.fin 1] [Flt.fin 1] (Flt.fin (1/2)) 5 c1Qub
    (by norm_num [qubViol, qubGuard, c1Qub])

theorem c9Cex_lsloop :
    lsLoop nilProblem fixParams noDir [] [] [] [] [] (Flt.fin 0) (Flt.fin 0)
      (Flt.fin 0) (Flt.fin 1) (Flt.fin 1) (Flt.fin 0) 9 c5LsIn =
      some c5LsOut := by
  have hcond : (Flt.blt (Flt.fin 0) c5LsOut.cond &&
      decide (fixParams.tauMin ≤ c5LsOut.tau)) = false := by
    norm_num [c5LsOut, fixParams]
  simp only [lsLoop, c5Cex_pass, hcond, Bool.false_eq_true, if_false]

/-! ## Claims -/

/-- C1 (counterexample): a PANOC solve at whose exit both the out-of-iter
flag (k = 0 = max_iter) and the out-of-time flag (the max-time oracle
fires) are raised returns status MaxTime, not the MaxIter the claim's
priority order (out-of-iter before out-of-time) demands. -/
theorem claim_C1_counterexample :
    (panocSolve cexC1Ctx 9).map SolveResult.status = some SolverStatus.MaxTime ∧
    (panocSolve cexC1Ctx 9).map SolveResult.status ≠ some SolverStatus.MaxIter ∧
    (panocSolve cexC1Ctx 9).map SolveResult.iters = some 0 := by
  rw [c1Cex_solve]
  refine ⟨rfl, ?_, rfl⟩
  simp [c1CexRes]

/-- C1 (amended): the exit status applied by both solvers' exit blocks is
determined by the flags in the priority order converged (Converged) >
out-of-time (MaxTime) > out-of-iter (MaxIter) > not-finite (NotFinite) >
no-progress (NoProgress), with Interrupted as the fallback when only the
stop signal fired; in particular out-of-time beats out-of-iter and
no-progress beats interrupted, the opposite of the claimed order. -/
theorem claim_C1 :
    ∀ conv oot oit nf mnp : Bool,
      exitStatus conv oot oit nf mnp =
        firstRaised
          [(conv, SolverStatus.Converged), (oot, SolverStatus.MaxTime),
           (oit, SolverStatus.MaxIter), (nf, SolverStatus.NotFinite),
           (mnp, SolverStatus.NoProgress)]
          SolverStatus.Interrupted := by
  intro conv oot oit nf mnp
  cases conv <;> cases oot <;> cases oit <;> cases nf <;> cases mnp <;> rfl

/-- C2 (counterexample): a PGA solve that exits non-converged with status
MaxIter (PGA has no always_overwrite_results parameter, and no stop signal
was raised) still overwrites the caller's x with the proximal image
x̂₀ = (1/20) ≠ x₀ = (1), contradicting the claim that on a non-converged,
non-Interrupted exit the outputs are left unchanged unless the overwrite
flag is set. -/
theorem claim_C2_counterexample :
    (pgaSolve cexC2Ctx 9).map SolveResult.status = some SolverStatus.MaxIter ∧
    (pgaSolve cexC2Ctx 9).map SolveResult.x = some [Flt.fin (1/20)] ∧
    (pgaSolve cexC2Ctx 9).map SolveResult.x ≠ some [Flt.fin 1] := by
  rw [c2Cex_solve]
  refine ⟨rfl, rfl, ?_⟩
  simp [c2CexRes]

/-- C2 (amended): at every exit of the PANOC main loop, x, y and err_z are
overwritten (with the current proximal image x̂ₖ, the auxiliary dual ŷ(x̂ₖ)
and g(x̂ₖ) − ẑ) exactly when the iterate converged (ε̂ₖ ≤ ε), the stop
signal was raised at that iteration (the interrupted flag — not the
returned status, which may differ when other flags are also raised), or
always_overwrite_results is set, and are left unchanged otherwise; PGA
overwrites x, y and err_z on every exit unconditionally (it takes no
always_overwrite_results parameter). -/
theorem claim_C2 {δ : Type} :
    (∀ (C : Ctx δ) (fuel k : Nat) (s : St δ) (r : SolveResult),
      panocIter C fuel k s = some (Sum.inl r) →
      r.x = (if Flt.ble r.epsv C.tol || C.stopSig k || C.aov then r.xhEx else C.xin) ∧
      r.y = (if Flt.ble r.epsv C.tol || C.stopSig k || C.aov then r.yhEx else C.yin) ∧
      r.ez = (if Flt.ble r.epsv C.tol || C.stopSig k || C.aov then C.P.errz r.xhEx else C.ezin)) ∧
    (∀ (C : PCtx) (fuel k : Nat) (s : PSt) (r : SolveResult),
      pgaIter C fuel k s = some (Sum.inl r) →
      r.x = r.xhEx ∧ r.y = r.yhEx ∧ r.ez = C.P.errz r.xhEx) := by
  constructor
  · intro C fuel k s r h
    simp only [panocIter] at h
    cases hp : panocPre C fuel k s with
    | none => rw [hp] at h; simp at h
    | some s3 =>
      rw [hp] at h
      simp only [Option.some_bind] at h
      split at h
      · simp only [Option.some.injEq, Sum.inl.injEq] at h
        subst h
        simp [panocExit]
      · exact absurd h (panocTail_ne_inl C fuel k s3 r)
  · intro C fuel k s r h
    simp only [pgaIter] at h
    cases hq : pgaQubLoop C.P s.xk s.gk s.psik fuel
        { L := s.L, gam := s.gam, xh := (calcXhat C.P s.gam s.xk s.gk).1,
          p := (calcXhat C.P s.gam s.xk s.gk).2,
          psih := (C.P.psiYhat (calcXhat C.P s.gam s.xk s.gk).1).1,
          yh := (C.P.psiYhat (calcXhat C.P s.gam s.xk s.gk).1).2,
          gTp := dot s.gk (calcXhat C.P s.gam s.xk s.gk).2,
          nsp := squaredNorm (calcXhat C.P s.gam s.xk s.gk).2 } with
    | none => rw [hq] at h; simp at h
    | some q =>
      rw [hq] at h
      simp only [Option.some_bind] at h
      split at h
      · simp only [Option.some.injEq, Sum.inl.injEq] at h
        subst h
        simp
      · exact absurd h (by simp)

/-- C2 (witness): the amended write-back law applied to the concrete
iteration-0 exits of the two fixture runs: the C1 fixture exit (PANOC,
MaxTime, no write condition) and the C2 fixture exit (PGA, MaxIter,
unconditional write). -/
theorem claim_C2_witness :
    (c1CexRes.x =
      (if Flt.ble c1CexRes.epsv cexC1Ctx.tol || cexC1Ctx.stopSig 0 || cexC1Ctx.aov
       then c1CexRes.xhEx else cexC1Ctx.xin) ∧
     c1CexRes.y =
      (if Flt.ble c1CexRes.epsv cexC1Ctx.tol || cexC1Ctx.stopSig 0 || cexC1Ctx.aov
       then c1CexRes.yhEx else cexC1Ctx.yin) ∧
     c1CexRes.ez =
      (if Flt.ble c1CexRes.epsv cexC1Ctx.tol || cexC1Ctx.stopSig 0 || cexC1Ctx.aov
       then cexC1Ctx.P.errz c1CexRes.xhEx else cexC1Ctx.ezin)) ∧
    (c2CexRes.x = c2CexRes.xhEx ∧ c2CexRes.y = c2CexRes.yhEx ∧
     c2CexRes.ez = cexC2Ctx.P.errz c2CexRes.xhEx) :=
  ⟨(claim_C2 (δ := Unit)).1 cexC1Ctx 9 0 c1CexSt0 c1CexRes c1Cex_iter,
   (claim_C2 (δ := Unit)).2 cexC2Ctx 9 0 c2CexSt0 c2CexRes c2Cex_iter⟩

/-- C3: in both solvers the initial Lipschitz estimate is computed as
`L₀ = ‖∇ψ(x₀+h) − ∇ψ(x₀)‖/‖h‖` with `hᵢ = max(|x₀ᵢ|·ε_L, δ_L)` (the
source-side computation refines the spec-side formula, given a nonnegative
relative perturbation and the ProblemAPI coherence of the two gradient
wrappers); estimates below machine epsilon are clamped to machine epsilon,
and a non-finite estimate makes the solver return immediately (0
iterations) with status NotFinite. -/
theorem claim_C3 {δ : Type} :
    (∀ C : Ctx δ, 0 ≤ C.pr.Le →
      (C.P.psiGrad C.xin).2 = C.P.grad C.xin →
      panocInitL C = specInitialLipschitz C.nrm C.P C.xin C.pr.Le C.pr.Ld) ∧
    (∀ C : PCtx, 0 ≤ C.pg.Le →
      (C.P.psiGrad C.xin).2 = C.P.grad C.xin →
      pgaInitL C = specInitialLipschitz C.nrm C.P C.xin C.pg.Le C.pg.Ld) ∧
    (∀ L : Flt, Flt.blt L (Flt.fin machEps) = true →
      clampL L = some (Flt.fin machEps)) ∧
    clampL Flt.nonfin = none ∧
    (∀ (C : Ctx δ) (fuel : Nat), clampL (panocInitL C) = none →
      panocSolve C fuel = some (panocNFRes C) ∧
      (panocNFRes C).status = SolverStatus.NotFinite ∧
      (panocNFRes C).iters = 0) ∧
    (∀ (C : PCtx) (fuel : Nat), clampL (pgaInitL C) = none →
      pgaSolve C fuel = some (pgaNFRes C) ∧
      (pgaNFRes C).status = SolverStatus.NotFinite ∧
      (pgaNFRes C).iters = 0) := by
  refine ⟨?_, ?_, ?_, rfl, ?_, ?_⟩
  · intro C he hco
    simp only [panocInitL, specInitialLipschitz, estimateL]
    rw [hco, hVec_eq_spec _ _ _ he]
  · intro C he hco
    simp only [pgaInitL, specInitialLipschitz, estimateL]
    rw [hco, hVec_eq_spec _ _ _ he]
  · intro L h
    simp [clampL, h]
  · intro C fuel h
    exact ⟨by simp only [panocSolve, h], rfl, rfl⟩
  · intro C fuel h
    exact ⟨by simp only [pgaSolve, h], rfl, rfl⟩

/-- C3 (witness): the refinement equation at the quadratic fixture, the
clamp at machEps/2, and the NotFinite returns at the non-finite-gradient
fixtures. -/
theorem claim_C3_witness :
    (panocInitL cexC1Ctx =
      specInitialLipschitz cexC1Ctx.nrm cexC1Ctx.P cexC1Ctx.xin
        cexC1Ctx.pr.Le cexC1Ctx.pr.Ld) ∧
    (pgaInitL cexC2Ctx =
      specInitialLipschitz cexC2Ctx.nrm cexC2Ctx.P cexC2Ctx.xin
        cexC2Ctx.pg.Le cexC2Ctx.pg.Ld) ∧
    (clampL (Flt.fin (machEps / 2)) = some (Flt.fin machEps)) ∧
    (panocSolve cexC7Ctx 9 = some (panocNFRes cexC7Ctx) ∧
      (panocNFRes cexC7Ctx).status = SolverStatus.NotFinite ∧
      (panocNFRes cexC7Ctx).iters = 0) ∧
    (pgaSolve cexC7PCtx 9 = some (pgaNFRes cexC7PCtx) ∧
      (pgaNFRes cexC7PCtx).status = SolverStatus.NotFinite ∧
      (pgaNFRes cexC7PCtx).iters = 0) :=
  ⟨(claim_C3 (δ := Unit)).1 cexC1Ctx (by norm_num [cexC1Ctx, fixParams]) rfl,
   (claim_C3 (δ := Unit)).2.1 cexC2Ctx (by norm_num [cexC2Ctx]) rfl,
   (claim_C3 (δ := Unit)).2.2.1 (Flt.fin (machEps / 2))
     (by norm_num [Flt.blt, machEps]),
   (claim_C3 (δ := Unit)).2.2.2.2.1 cexC7Ctx 9 c7Cex_clampP,
   (claim_C3 (δ := Unit)).2.2.2.2.2 cexC7PCtx 9 c7Cex_clampG⟩

/-- C7 (counterexample): on the non-finite initial Lipschitz estimate path,
a PGA solve returns with the caller's x already mutated to x₀ + h = (2)
(contradicting that x is not left modified on this path), and a PANOC solve
with always_overwrite_results set still returns y and err_z exactly equal
to the inputs — nothing is written even though the claim says the outputs
are written when the overwrite flag is set (any write of err_z would have
produced the oracle value (99), not the input (3)). -/
theorem claim_C7_counterexample :
    (pgaSolve cexC7PCtx 9).map SolveResult.status = some SolverStatus.NotFinite ∧
    (pgaSolve cexC7PCtx 9).map SolveResult.x = some [Flt.fin 2] ∧
    (pgaSolve cexC7PCtx 9).map SolveResult.x ≠ some [Flt.fin 1] ∧
    cexC7Ctx.aov = true ∧
    (panocSolve cexC7Ctx 9).map SolveResult.status = some SolverStatus.NotFinite ∧
    (panocSolve cexC7Ctx 9).map SolveResult.y = some cexC7Ctx.yin ∧
    (panocSolve cexC7Ctx 9).map SolveResult.ez = some cexC7Ctx.ezin ∧
    (panocSolve cexC7Ctx 9).map SolveResult.ez ≠ some [Flt.fin 99] := by
  have hg : pgaSolve cexC7PCtx 9 = some (pgaNFRes cexC7PCtx) := by
    simp only [pgaSolve, c7Cex_clampG]
  have hp : panocSolve cexC7Ctx 9 = some (panocNFRes cexC7Ctx) := by
    simp only [panocSolve, c7Cex_clampP]
  rw [hg, hp]
  norm_num [pgaNFRes, panocNFRes, cexC7PCtx, cexC7Ctx, hVec, vadd, smul,
    cwiseAbs, cwiseMaxS, Flt.add, Flt.mul, Flt.fabs, Flt.fmax]

/-- C7 (amended): on a non-finite initial Lipschitz estimate both solvers
return immediately with status NotFinite and write nothing to y and err_z,
regardless of any overwrite flag (PANOC ignores always_overwrite_results on
this path and also leaves x unchanged); PGA however has already perturbed
the caller's x to x₀ + h before the estimate, so its x is left modified. -/
theorem claim_C7 {δ : Type} :
    (∀ (C : Ctx δ) (fuel : Nat), clampL (panocInitL C) = none →
      panocSolve C fuel = some (panocNFRes C) ∧
      (panocNFRes C).x = C.xin ∧ (panocNFRes C).y = C.yin ∧
      (panocNFRes C).ez = C.ezin ∧
      (panocNFRes C).status = SolverStatus.NotFinite) ∧
    (∀ (C : PCtx) (fuel : Nat), clampL (pgaInitL C) = none →
      pgaSolve C fuel = some (pgaNFRes C) ∧
      (pgaNFRes C).x = vadd C.xin (hVec C.xin C.pg.Le C.pg.Ld) ∧
      (pgaNFRes C).y = C.yin ∧ (pgaNFRes C).ez = C.ezin ∧
      (pgaNFRes C).status = SolverStatus.NotFinite) := by
  constructor
  · intro C fuel h
    exact ⟨by simp only [panocSolve, h], rfl, rfl, rfl, rfl⟩
  · intro C fuel h
    exact ⟨by simp only [pgaSolve, h], rfl, rfl, rfl, rfl⟩

/-- C7 (witness): the amended NotFinite frame law at the two non-finite
fixtures. -/
theorem claim_C7_witness :
    (panocSolve cexC7Ctx 9 = some (panocNFRes cexC7Ctx) ∧
      (panocNFRes cexC7Ctx).x = cexC7Ctx.xin ∧
      (panocNFRes cexC7Ctx).y = cexC7Ctx.yin ∧
      (panocNFRes cexC7Ctx).ez = cexC7Ctx.ezin ∧
      (panocNFRes cexC7Ctx).status = SolverStatus.NotFinite) ∧
    (pgaSolve cexC7PCtx 9 = some (pgaNFRes cexC7PCtx) ∧
      (pgaNFRes cexC7PCtx).x =
        vadd cexC7PCtx.xin (hVec cexC7PCtx.xin cexC7PCtx.pg.Le cexC7PCtx.pg.Ld) ∧
      (pgaNFRes cexC7PCtx).y = cexC7PCtx.yin ∧
      (pgaNFRes cexC7PCtx).ez = cexC7PCtx.ezin ∧
      (pgaNFRes cexC7PCtx).status = SolverStatus.NotFinite) :=
  ⟨(claim_C7 (δ := Unit)).1 cexC7Ctx 9 c7Cex_clampP,
   (claim_C7 (δ := Unit)).2 cexC7PCtx 9 c7Cex_clampG⟩

/-- C8: PANOC updates the no-progress counter only on iterations with
`no_progress > 0` or `k mod lbfgs_mem = 0`, incrementing on exact
componentwise equality of xₖ and xₖ₊₁ and resetting to 0 otherwise, and its
NoProgress exit flag fires iff the counter exceeds lbfgs_mem; PGA updates
the counter every iteration from exact equality of xₖ and x̂ₖ, and its
NoProgress exit flag fires iff the counter exceeds 1. -/
theorem claim_C8 :
    ∀ (mem k np : Nat) (xk xk1 xh : Vec),
      (panocNoProg mem k np xk xk1 =
        if np > 0 ∨ k % mem = 0 then (if veq xk xk1 then np + 1 else 0)
        else np) ∧
      (panocNoProgExit mem np = decide (np > mem)) ∧
      (pgaNoProg np xk xh = if veq xk xh then np + 1 else 0) ∧
      (pgaNoProgExit np = decide (np > 1)) := by
  intro mem k np xk xk1 xh
  refine ⟨?_, rfl, rfl, rfl⟩
  by_cases h1 : np > 0 <;> by_cases h2 : k % mem = 0 <;>
    simp [panocNoProg, h1, h2]

/-- C10: with Anderson acceleration requested at depth mₐₐ > 0, the
allocation block sizes the coefficient vector γₐₐ_LS, the history matrix
Gₐₐ (min(mₐₐ,n) columns of length n) and the QR capacity with
min(mₐₐ, n), not mₐₐ; in particular a requested memory larger than the
problem dimension silently uses depth n. -/
theorem claim_C10 :
    ∀ aaMem n m : Nat, aaMem ≠ 0 →
      (initAA aaMem n m).gls.length = aaDepth aaMem n ∧
      (initAA aaMem n m).G.length = aaDepth aaMem n ∧
      (∀ c ∈ (initAA aaMem n m).G, c.length = n) ∧
      (initAA aaMem n m).qr.cap = aaDepth aaMem n ∧
      aaDepth aaMem n = min aaMem n ∧
      (n < aaMem → aaDepth aaMem n = n) := by
  intro aaMem n m h
  refine ⟨?_, ?_, ?_, ?_, rfl, ?_⟩
  · simp [initAA, h]
  · simp [initAA, h]
  · intro c hc
    simp only [initAA, if_neg h] at hc
    rw [List.eq_of_mem_replicate hc]
    exact List.length_replicate _ _
  · simp [initAA, h]
  · intro hlt
    exact Nat.min_eq_right (Nat.le_of_lt hlt)

/-- C10 (witness): requesting Anderson memory 3 on a 2-dimensional problem
allocates everything at depth min(3, 2) = 2. -/
theorem claim_C10_witness :
    (initAA 3 2 1).gls.length = aaDepth 3 2 ∧
    (initAA 3 2 1).G.length = aaDepth 3 2 ∧
    (∀ c ∈ (initAA 3 2 1).G, c.length = 2) ∧
    (initAA 3 2 1).qr.cap = aaDepth 3 2 ∧
    aaDepth 3 2 = min 3 2 ∧
    (2 < 3 → aaDepth 3 2 = 2) :=
  claim_C10 3 2 1 (by decide)

/-- C4: whenever a PANOC quadratic-upper-bound adaptation loop (the shared
loop run pre-iteration at k = 0 or with update_lipschitz_in_linesearch off,
and inside the line search otherwise) finishes, either the strict
violation comparison ψ(x̂) − ψ > ∇ψᵀp + ½L‖p‖² is false — which for finite
values means ψ(x̂) − ψ ≤ ∇ψᵀp + ½L‖p‖², as the second conjunct shows — or
the ψ-relative noise guard comparison |∇ψᵀp/ψ| > θ_qub is false, i.e. the
guard short-circuited the loop. -/
theorem claim_C4 :
    ∀ (P : Problem) (th : ℚ) (x g : Vec) (psi : Flt) (fuel : Nat)
      (q q' : QubSt),
      qubLoop P th x g psi fuel q = some q' →
      (qubViol psi q'.psih q'.gTp q'.L q'.nsp = false ∨
        qubGuard th psi q'.gTp = false) ∧
      (qubViol psi q'.psih q'.gTp q'.L q'.nsp = false →
        (q'.psih - psi).isFinite = true →
        (q'.gTp + Flt.fin (1/2) * q'.L * q'.nsp).isFinite = true →
        Flt.ble (q'.psih - psi)
          (q'.gTp + Flt.fin (1/2) * q'.L * q'.nsp) = true) := by
  intro P th x g psi fuel
  induction fuel with
  | zero =>
    intro q q' h
    simp only [qubLoop] at h
    split at h
    · exact absurd h (by simp)
    · next hcond =>
      simp only [Option.some.injEq] at h
      subst h
      refine ⟨qub_exit_post psi th q (Bool.eq_false_iff.mpr hcond), ?_⟩
      intro hv hf1 hf2
      exact blt_false_ble _ _ hf2 hf1 (by simpa [qubViol] using hv)
  | succ n ih =>
    intro q q' h
    simp only [qubLoop] at h
    split at h
    · exact ih _ _ h
    · next hcond =>
      simp only [Option.some.injEq] at h
      subst h
      refine ⟨qub_exit_post psi th q (Bool.eq_false_iff.mpr hcond), ?_⟩
      intro hv hf1 hf2
      exact blt_false_ble _ _ hf2 hf1 (by simpa [qubViol] using hv)

/-- C4 (witness): the quadratic fixture exits its quadratic-upper-bound
loop immediately and satisfies the claimed disjunction and the finite-case
bound. -/
theorem claim_C4_witness :
    (qubViol (Flt.fin (1/2)) c1Qub.psih c1Qub.gTp c1Qub.L c1Qub.nsp = false ∨
      qubGuard 0 (Flt.fin (1/2)) c1Qub.gTp = false) ∧
    (qubViol (Flt.fin (1/2)) c1Qub.psih c1Qub.gTp c1Qub.L c1Qub.nsp = false →
      (c1Qub.psih - Flt.fin (1/2)).isFinite = true →
      (c1Qub.gTp + Flt.fin (1/2) * c1Qub.L * c1Qub.nsp).isFinite = true →
      Flt.ble (c1Qub.psih - Flt.fin (1/2))
        (c1Qub.gTp + Flt.fin (1/2) * c1Qub.L * c1Qub.nsp) = true) :=
  claim_C4 quadProblem 0 [Flt.fin 1] [Flt.fin 1] (Flt.fin (1/2)) 9 c1Qub c1Qub
    (qubLoop_exit _ _ _ _ _ _ _
      (by norm_num [qubViol, qubGuard, c1Qub, Flt.add, Flt.sub, Flt.mul,
        Flt.div, Flt.fabs, Flt.blt]))

/-- C5: the PANOC line search starts from τ = 1, forced to 0 at k = 0 or
when the quasi-Newton step has a non-finite entry; each pass halves τ; a
pass whose τ/2 has dropped below τ_min takes the pure proximal candidate
(xₖ₊₁ = x̂ₖ with ψₖ₊₁ = ψx̂ₖ and ∇ψₖ₊₁ = ∇ψ̂ₖ), any other pass takes
xₖ₊₁ = xₖ + (1−τ)pₖ + τqₖ with ψₖ₊₁, ∇ψₖ₊₁ evaluated there; and after the
loop the linesearch_failures counter is incremented exactly when
τ < τ_min and k ≠ 0. -/
theorem claim_C5 {δ : Type} :
    (∀ (k : Nat) (q : Vec),
      initTau k q = if k = 0 ∨ allFinite q = false then 0 else 1) ∧
    (∀ (P : Problem) (pr : Params) (D : DirOps δ)
      (xk pk qk xhk ghk : Vec) (psihk phik snp gamk Lk sigk : Flt)
      (fuel : Nat) (l l' : LsSt δ),
      lsPass P pr D xk pk qk xhk ghk psihk phik snp gamk Lk sigk fuel l =
        some l' →
      l'.tau = l.tau / 2 ∧
      (l.tau / 2 < pr.tauMin →
        l'.x1 = xhk ∧ l'.psi1 = psihk ∧ l'.g1 = ghk) ∧
      (¬(l.tau / 2 < pr.tauMin) →
        l'.x1 = vadd (vadd xk (smul (Flt.fin (1 - l.tau)) pk))
          (smul (Flt.fin l.tau) qk) ∧
        l'.psi1 = (P.psiGrad l'.x1).1 ∧ l'.g1 = (P.psiGrad l'.x1).2)) ∧
    (∀ (pr : Params) (tau : ℚ) (k c : Nat),
      (tau < pr.tauMin → k ≠ 0 → lsFailTally pr tau k c = c + 1) ∧
      (pr.tauMin ≤ tau ∨ k = 0 → lsFailTally pr tau k c = c)) := by
  refine ⟨?_, ?_, ?_⟩
  · intro k q
    by_cases hk : k = 0
    · simp [initTau, hk]
    · cases hq : allFinite q <;> simp [initTau, hk, hq]
  · intro P pr D xk pk qk xhk ghk psihk phik snp gamk Lk sigk fuel l l' h
    simp only [lsPass] at h
    rcases Option.map_eq_some'.mp h with ⟨w, hw, hfl⟩
    subst hfl
    by_cases hfail : l.tau / 2 < pr.tauMin
    · exact ⟨rfl, fun _ => by simp [lsCandidate, if_pos hfail],
        fun hc => absurd hfail hc⟩
    · exact ⟨rfl, fun hc => absurd hc hfail,
        fun _ => by simp [lsCandidate, if_neg hfail]⟩
  · intro pr tau k c
    constructor
    · intro h1 h2
      simp [lsFailTally, h1, h2]
    · intro h
      rcases h with h | h
      · simp [lsFailTally, not_lt.mpr h]
      · simp [lsFailTally, h]

/-- C5 (witness): the line-search law at the k = 0 pass of the quadratic
fixture (τ = 0, pure proximal candidate) and the two sides of the failure
tally at concrete values. -/
theorem claim_C5_witness :
    (initTau 0 [Flt.nonfin] = if 0 = 0 ∨ allFinite [Flt.nonfin] = false then 0 else 1) ∧
    (c5LsOut.tau = c5LsIn.tau / 2 ∧
      (c5LsIn.tau / 2 < fixParams.tauMin →
        c5LsOut.x1 = [] ∧ c5LsOut.psi1 = Flt.fin 0 ∧ c5LsOut.g1 = []) ∧
      (¬(c5LsIn.tau / 2 < fixParams.tauMin) →
        c5LsOut.x1 = vadd (vadd []
            (smul (Flt.fin (1 - c5LsIn.tau)) []))
          (smul (Flt.fin c5LsIn.tau) []) ∧
        c5LsOut.psi1 = (nilProblem.psiGrad c5LsOut.x1).1 ∧
        c5LsOut.g1 = (nilProblem.psiGrad c5LsOut.x1).2)) ∧
    (0 < fixParams.tauMin → (1 : Nat) ≠ 0 → lsFailTally fixParams 0 1 5 = 6) :=
  ⟨(claim_C5 (δ := Unit)).1 0 [Flt.nonfin],
   (claim_C5 (δ := Unit)).2.1 nilProblem fixParams noDir [] [] [] [] []
     (Flt.fin 0) (Flt.fin 0) (Flt.fin 0) (Flt.fin 1) (Flt.fin 1)
     (Flt.fin 0) 8 c5LsIn c5LsOut c5Cex_pass,
   fun h1 h2 => ((claim_C5 (δ := Unit)).2.2 fixParams 0 1 5).1 h1 h2⟩

/-- C6: in the Anderson block for k ≥ 1, the extrapolated point is accepted
iff ψ at the projected accelerated point xₐₐ = proj_C(yₐₐ) is strictly
smaller than ψ(x̂ₖ); on acceptance x̂ₖ becomes that projected point, pₖ is
recomputed as x̂ₖ − xₖ, ψx̂ₖ takes the new strictly smaller value and
grad_ψ̂ₖ is recomputed from ŷₐₐ; on rejection x̂ₖ, pₖ, ψx̂ₖ and grad_ψ̂ₖ are
unchanged. -/
theorem claim_C6 :
    ∀ (P : Problem)
      (minUpd : LimitedMemoryQR → List Vec → Vec → Vec → Vec →
        LimitedMemoryQR × List Vec × Vec × Vec)
      (gam : Flt) (xk gk : Vec) (psihk : Flt) (xhk pk ghk : Vec)
      (aa : AAState) (acc : Bool) (aa' : AAState)
      (xh' p' : Vec) (psih' : Flt) (gh' : Vec),
      andersonStep P minUpd gam xk gk psihk xhk pk ghk aa =
        (acc, aa', xh', p', psih', gh') →
      (acc = Flt.blt (P.psiYhat (P.proj aa'.ya)).1 psihk) ∧
      (acc = true →
        xh' = P.proj aa'.ya ∧ p' = vsub xh' xk ∧
        psih' = (P.psiYhat xh').1 ∧
        gh' = P.gradFromYhat xh' (P.psiYhat xh').2 ∧
        Flt.blt psih' psihk = true) ∧
      (acc = false →
        xh' = xhk ∧ p' = pk ∧ psih' = psihk ∧ gh' = ghk) := by
  intro P minUpd gam xk gk psihk xhk pk ghk aa acc aa' xh' p' psih' gh' h
  simp only [andersonStep] at h
  split at h
  · next hacc =>
    simp only [Prod.mk.injEq] at h
    obtain ⟨h1, h2, h3, h4, h5, h6⟩ := h
    subst h1; subst h2; subst h3; subst h4; subst h5; subst h6
    exact ⟨hacc.symm, fun _ => ⟨rfl, rfl, rfl, rfl, hacc⟩,
      fun hfalse => absurd hfalse (by simp)⟩
  · next hacc =>
    have hacc' := Bool.eq_false_iff.mpr hacc
    simp only [Prod.mk.injEq] at h
    obtain ⟨h1, h2, h3, h4, h5, h6⟩ := h
    subst h1; subst h2; subst h3; subst h4; subst h5; subst h6
    exact ⟨hacc'.symm, fun htrue => absurd htrue (by simp [hacc']),
      fun _ => ⟨rfl, rfl, rfl, rfl⟩⟩

/-- C6 (witness): the Anderson acceptance law at a concrete accepted step
of the quadratic fixture (ψₐₐ = 0 < ψ(x̂ₖ) = 1/800). -/
theorem claim_C6_witness :
    (true = Flt.blt (quadProblem.psiYhat (quadProblem.proj c6AAOut.ya)).1
      (Flt.fin (1/800))) ∧
    (true = true →
      [Flt.fin 0] = quadProblem.proj c6AAOut.ya ∧
      [Flt.fin (-1)] = vsub [Flt.fin 0] [Flt.fin 1] ∧
      Flt.fin 0 = (quadProblem.psiYhat [Flt.fin 0]).1 ∧
      [Flt.fin 0] = quadProblem.gradFromYhat [Flt.fin 0]
        (quadProblem.psiYhat [Flt.fin 0]).2 ∧
      Flt.blt (Flt.fin 0) (Flt.fin (1/800)) = true) ∧
    (true = false →
      [Flt.fin 0] = [Flt.fin (1/20)] ∧
      [Flt.fin (-1)] = [Flt.fin (-(19/20))] ∧
      Flt.fin 0 = Flt.fin (1/800) ∧ [Flt.fin 0] = [Flt.fin (1/20)]) :=
  claim_C6 quadProblem noMinUpd (Flt.fin (19/20)) [Flt.fin 1] [Flt.fin 1]
    (Flt.fin (1/800)) [Flt.fin (1/20)] [Flt.fin (-(19/20))]
    [Flt.fin (1/20)] (initAA 1 1 1) true c6AAOut [Flt.fin 0] [Flt.fin (-1)]
    (Flt.fin 0) [Flt.fin 0] c6Cex_step

set_option maxHeartbeats 800000 in
/-- C9: the step size γ is monotone non-increasing and the Lipschitz
estimate L is monotone non-decreasing over a whole solve run, from
γ₀ = Lγ_factor / L₀ and the clamped initial estimate L₀ down to the values
at exit (PANOC panoc.hpp:170-196 and 314-402, PGA pga.hpp:181-193); and
the same monotone evolution holds across the quadratic-upper-bound loop
and the line-search loop in isolation, so the bound holds at every point
inside an iteration as well.  The positivity hypothesis on Lγ_factor
matches the spec's standing invariant γₖ > 0. -/
theorem claim_C9 :
    (∀ (δ : Type) (C : Ctx δ) (fuel : Nat) (L0 : Flt) (r : SolveResult),
      clampL (panocInitL C) = some L0 → 0 < C.pr.Lgf →
      panocSolve C fuel = some r →
      (panocInitSt C L0).gam = Flt.div (Flt.fin C.pr.Lgf) L0 ∧
      (panocInitSt C L0).L = L0 ∧
      Flt.ble r.gamEx (panocInitSt C L0).gam = true ∧
      Flt.ble L0 r.LEx = true) ∧
    (∀ (C : PCtx) (fuel : Nat) (L0 : Flt) (r : SolveResult),
      clampL (pgaInitL C) = some L0 → 0 < C.pg.Lgf →
      pgaSolve C fuel = some r →
      (pgaInitSt C L0).gam = Flt.div (Flt.fin C.pg.Lgf) L0 ∧
      (pgaInitSt C L0).L = L0 ∧
      Flt.ble r.gamEx (pgaInitSt C L0).gam = true ∧
      Flt.ble L0 r.LEx = true) ∧
    (∀ (P : Problem) (th : ℚ) (x g : Vec) (psi : Flt) (fuel : Nat)
      (q q' : QubSt), qubLoop P th x g psi fuel q = some q' →
      finPos q.gam → finPos q.L →
      Flt.ble q'.gam q.gam = true ∧ Flt.ble q.L q'.L = true) ∧
    (∀ (δ : Type) (P : Problem) (pr : Params) (D : DirOps δ)
      (xk pk qk xhk ghk : Vec) (psihk phik snp gamk Lk sigk : Flt)
      (fuel : Nat) (l l' : LsSt δ),
      lsLoop P pr D xk pk qk xhk ghk psihk phik snp gamk Lk sigk fuel l =
        some l' → finPos gamk → finPos Lk →
      Flt.ble l'.gam1 gamk = true ∧ Flt.ble Lk l'.L1 = true) := by
  refine ⟨?_, ?_, ?_, ?_⟩
  · intro δ C fuel L0 r hclamp hpos hsolve
    obtain ⟨q0, hq0e, hq0⟩ := clampL_pos _ _ hclamp
    subst hq0e
    simp only [panocSolve, hclamp] at hsolve
    have hgam : (panocInitSt C (Flt.fin q0)).gam =
        Flt.div (Flt.fin C.pr.Lgf) (Flt.fin q0) := rfl
    have hgam2 : (panocInitSt C (Flt.fin q0)).gam =
        Flt.fin (C.pr.Lgf / q0) := by
      rw [hgam, Flt.div_fin, if_neg hq0.ne']
    have hL : (panocInitSt C (Flt.fin q0)).L = Flt.fin q0 := rfl
    have hg : finPos (panocInitSt C (Flt.fin q0)).gam :=
      ⟨C.pr.Lgf / q0, hgam2, div_pos hpos hq0⟩
    have hLp : finPos (panocInitSt C (Flt.fin q0)).L := ⟨q0, hL, hq0⟩
    have hm := panocRun_mono C fuel (C.pr.maxIter + 1) 0
      (panocInitSt C (Flt.fin q0)) r hsolve hg hLp
    have hb := stepMono_ble hm
    exact ⟨hgam, hL, hb.1, hb.2⟩
  · intro C fuel L0 r hclamp hpos hsolve
    obtain ⟨q0, hq0e, hq0⟩ := clampL_pos _ _ hclamp
    subst hq0e
    simp only [pgaSolve, hclamp] at hsolve
    have hgam : (pgaInitSt C (Flt.fin q0)).gam =
        Flt.div (Flt.fin C.pg.Lgf) (Flt.fin q0) := rfl
    have hgam2 : (pgaInitSt C (Flt.fin q0)).gam =
        Flt.fin (C.pg.Lgf / q0) := by
      rw [hgam, Flt.div_fin, if_neg hq0.ne']
    have hL : (pgaInitSt C (Flt.fin q0)).L = Flt.fin q0 := rfl
    have hg : finPos (pgaInitSt C (Flt.fin q0)).gam :=
      ⟨C.pg.Lgf / q0, hgam2, div_pos hpos hq0⟩
    have hLp : finPos (pgaInitSt C (Flt.fin q0)).L := ⟨q0, hL, hq0⟩
    have hm := pgaRun_mono C fuel (C.pg.maxIter + 1) 0
      (pgaInitSt C (Flt.fin q0)) r hsolve hg hLp
    have hb := stepMono_ble hm
    exact ⟨hgam, hL, hb.1, hb.2⟩
  · intro P th x g psi fuel q q' h hg hL
    exact stepMono_ble (qubLoop_mono P th x g psi fuel q q' h hg hL)
  · intro δ P pr D xk pk qk xhk ghk psihk phik snp gamk Lk sigk fuel l l' h
      hg hL
    exact stepMono_ble
      (lsLoop_mono P pr D xk pk qk xhk ghk psihk phik snp gamk Lk sigk fuel
        l l' h hg hL)

/-- C9 (witness): the monotone γ/L evolution law instantiated at the
concrete fixture runs: a full PANOC solve, a full PGA solve, an immediately
exiting quadratic-upper-bound loop and a one-pass line search. -/
theorem claim_C9_witness :
    ((panocInitSt cexC1Ctx (Flt.fin 1)).gam =
        Flt.div (Flt.fin cexC1Ctx.pr.Lgf) (Flt.fin 1) ∧
      (panocInitSt cexC1Ctx (Flt.fin 1)).L = Flt.fin 1 ∧
      Flt.ble c1CexRes.gamEx (panocInitSt cexC1Ctx (Flt.fin 1)).gam = true ∧
      Flt.ble (Flt.fin 1) c1CexRes.LEx = true) ∧
    ((pgaInitSt cexC2Ctx (Flt.fin 1)).gam =
        Flt.div (Flt.fin cexC2Ctx.pg.Lgf) (Flt.fin 1) ∧
      (pgaInitSt cexC2Ctx (Flt.fin 1)).L = Flt.fin 1 ∧
      Flt.ble c2CexRes.gamEx (pgaInitSt cexC2Ctx (Flt.fin 1)).gam = true ∧
      Flt.ble (Flt.fin 1) c2CexRes.LEx = true) ∧
    (Flt.ble c1Qub.gam c1Qub.gam = true ∧ Flt.ble c1Qub.L c1Qub.L = true) ∧
    (Flt.ble c5LsOut.gam1 (Flt.fin 1) = true ∧
      Flt.ble (Flt.fin 1) c5LsOut.L1 = true) :=
  ⟨claim_C9.1 Unit cexC1Ctx 9 (Flt.fin 1) c1CexRes c1Cex_clamp
      (by norm_num [cexC1Ctx, fixParams]) c1Cex_solve,
    claim_C9.2.1 cexC2Ctx 9 (Flt.fin 1) c2CexRes c2Cex_clamp
      (by norm_num [cexC2Ctx]) c2Cex_solve,
    claim_C9.2.2.1 quadProblem 0 [Flt.fin 1] [Flt.fin 1] (Flt.fin (1/2)) 5
      c1Qub c1Qub c9Cex_qub ⟨19/20, rfl, by norm_num⟩ ⟨1, rfl, by norm_num⟩,
    claim_C9.2.2.2 Unit nilProblem fixParams noDir [] [] [] [] []
      (Flt.fin 0) (Flt.fin 0) (Flt.fin 0) (Flt.fin 1) (Flt.fin 1)
      (Flt.fin 0) 9 c5LsIn c5LsOut c9Cex_lsloop ⟨1, rfl, by norm_num⟩
      ⟨1, rfl, by norm_num⟩⟩

end PanocAlm
